import Mathlib

/-!
# EnvVar go-service: configuration resolution and server bootstrap

A shallow embedding of `go-service/main.go`.

* The process environment is a finite map from names to values; it is
  modelled as a function `String → Option String` (`none` = unset).
* `godotenv.Load()` is an external library call that may add variables to
  the process environment before anything is read. It is taken as a
  parameter `dotenv : Env → Env`; every function that runs after it reads
  the environment `dotenv env`.
* `strconv.Atoi`, `strconv.ParseInt` and `strconv.ParseUint` are the Go
  standard library functions called by `loadConfig`; they are transcribed
  for the only arguments used (`base = 10`, `bitSize = 0`).
* Go's `int` is 32 or 64 bits wide depending on the platform
  (`strconv.IntSize`); the width is a parameter `IntSize`.
* `time.Duration` is a signed 64-bit count of nanoseconds; multiplication
  wraps modulo `2^64`.
* Go strings are byte sequences. They are modelled by Lean strings (valid
  UTF-8). The parsers below inspect one code point where Go inspects one
  byte: every byte of a multi-byte encoding is `≥ 0x80`, hence neither a
  sign nor a digit nor a letter, so the outcome is the same. Lengths are
  byte lengths (`String.utf8ByteSize`).
-/

namespace EnvVar

/-! ## Process environment -/

/-- The process environment: `none` means the variable is unset. -/
abbrev Env := String → Option String

/-- Go `os.Getenv`: the value of the variable, or the empty string when unset. -/
def osGetenv (env : Env) (key : String) : String :=
  match env key with
  | some v => v
  | none => ""

/-- Source `getEnv` (main.go 94-100). -/
def getEnv (env : Env) (key defaultValue : String) : String :=
  let value := osGetenv env key
  if value = "" then defaultValue else value

/-! ## Platform integers -/

/-- Width of Go's `int` (`strconv.IntSize`). -/
inductive IntSize where
  | bits32
  | bits64
  deriving DecidableEq, Repr

/-- Number of bits of `int`. -/
def IntSize.bits : IntSize → Nat
  | .bits32 => 32
  | .bits64 => 64

/-- Two's-complement reinterpretation of an integer in `w` bits. -/
def wrapSigned (w : Nat) (x : Int) : Int :=
  (x + 2 ^ (w - 1)) % 2 ^ w - 2 ^ (w - 1)

/-- Go conversion `int(i64)`. -/
def toInt (sz : IntSize) (x : Int) : Int := wrapSigned sz.bits x

/-- Arithmetic of Go `int64`. -/
def wrapInt64 (x : Int) : Int := wrapSigned 64 x

/-! ## strconv -/

/-- The two error kinds `strconv` reports for base 10 (`ErrSyntax`, `ErrRange`). -/
inductive NumError where
  | errSyntax
  | errRange
  deriving DecidableEq, Repr

/-- Go `maxUint64`. -/
def maxUint64 : Nat := 2 ^ 64 - 1

/-- Go strconv `lower(c)`: `c | ('x' - 'X')`. -/
def lower (c : Nat) : Nat := c ||| 0x20

/-- The digit switch of `ParseUint` (base not 0, so `_` is not special):
`'0'..'9'` give `c - '0'`, letters give `lower(c) - 'a' + 10`, anything else
is a syntax error (`none`). -/
def digitOf (c : Char) : Option Nat :=
  let b := c.toNat
  if 48 ≤ b ∧ b ≤ 57 then some (b - 48)
  else if 97 ≤ lower b ∧ lower b ≤ 122 then some (lower b - 97 + 10)
  else none

/-- The loop of `ParseUint` over the bytes of `s`, with accumulator `n` (a `uint64`). -/
def parseUintLoop (base cutoff maxVal : Nat) : List Char → Nat → Nat × Option NumError
  | [], n => (n, none)
  | c :: cs, n =>
    match digitOf c with
    | none => (0, some .errSyntax)
    | some d =>
      if d ≥ base then (0, some .errSyntax)
      else if n ≥ cutoff then (maxVal, some .errRange)
      else
        let n' := (n * base) % 2 ^ 64
        let n1 := (n' + d) % 2 ^ 64
        if n1 < n' ∨ n1 > maxVal then (maxVal, some .errRange)
        else parseUintLoop base cutoff maxVal cs n1

/-- Go `strconv.ParseUint(s, 10, 0)`: `bitSize = 0` selects `IntSize`;
`cutoff = maxUint64/10 + 1`; `maxVal = uint64(1)<<bitSize - 1` in `uint64`. -/
def ParseUint (sz : IntSize) (s : List Char) : Nat × Option NumError :=
  if s = [] then (0, some .errSyntax)
  else
    let bitSize := sz.bits
    let cutoff := maxUint64 / 10 + 1
    let maxVal := ((2 ^ bitSize) % 2 ^ 64 + 2 ^ 64 - 1) % 2 ^ 64
    parseUintLoop 10 cutoff maxVal s 0

/-- Go `strconv.ParseInt(s, 10, 0)`. The value is returned together with the
error: on a range error it is the integer of maximum magnitude with the sign
of the input, on a syntax error it is 0. -/
def ParseInt (sz : IntSize) (s : List Char) : Int × Option NumError :=
  match s with
  | [] => (0, some .errSyntax)
  | c0 :: rest =>
    let neg := decide (c0 = '-')
    let s1 := if c0 = '+' then rest else if c0 = '-' then rest else c0 :: rest
    let (un, err) := ParseUint sz s1
    if err = some .errSyntax then (0, err)
    else
      let bitSize := sz.bits
      let cutoff : Nat := 2 ^ (bitSize - 1)
      if neg = false ∧ un ≥ cutoff then (((cutoff - 1 : Nat) : Int), some .errRange)
      else if neg = true ∧ un > cutoff then (-(cutoff : Int), some .errRange)
      else
        let n : Int := (un : Int)
        (if neg then -n else n, none)

/-- The fast-path loop of `Atoi`: `ch -= '0'; if ch > 9` is a syntax error
(`none`), else `n = n*10 + int(ch)`. At most 18 (resp. 9) digits are read, so
`n` stays below `2^63` (resp. `2^31`) and never overflows. -/
def atoiLoop : List Char → Nat → Option Nat
  | [], n => some n
  | c :: cs, n =>
    if 48 ≤ c.toNat ∧ c.toNat ≤ 57 then atoiLoop cs (n * 10 + (c.toNat - 48))
    else none

/-- Go `strconv.Atoi`. -/
def Atoi (sz : IntSize) (s : String) : Int × Option NumError :=
  let sLen := s.utf8ByteSize
  if (sz.bits = 32 ∧ (0 < sLen ∧ sLen < 10)) ∨ (sz.bits = 64 ∧ (0 < sLen ∧ sLen < 19)) then
    match s.data with
    | [] => (0, some .errSyntax)
    | c0 :: rest =>
      let signed := decide (c0 = '-' ∨ c0 = '+')
      let body := if signed then rest else c0 :: rest
      if signed = true ∧ body = [] then (0, some .errSyntax)
      else
        match atoiLoop body 0 with
        | none => (0, some .errSyntax)
        | some n => (if c0 = '-' then -(n : Int) else (n : Int), none)
  else
    let (i64, err) := ParseInt sz s.data
    (toInt sz i64, err)

/-! ## Configuration resolver -/

/-- Go `time.Second` in nanoseconds. -/
def timeSecond : Int := 1000000000

/-- Source `Config` (main.go 15-47). Durations are nanoseconds (`int64`). -/
structure Config where
  Port : String
  Host : String
  Environment : String
  DatabaseURL : String
  DatabaseDriver : String
  MaxConnections : Int
  RedisHost : String
  RedisPort : String
  RedisPassword : String
  RedisDB : Int
  StripeAPIKey : String
  TwilioSID : String
  TwilioToken : String
  DatadogAPIKey : String
  DatadogAppKey : String
  EnableMetrics : Bool
  EnableTracing : Bool
  ReadTimeout : Int
  WriteTimeout : Int

/-- Source `loadConfig` (main.go 49-92). Returns the configuration and the
environment left behind by `godotenv.Load()`. The errors of `Atoi` are
discarded (`_`), the returned values are used as they are. -/
def loadConfig (dotenv : Env → Env) (sz : IntSize) (env0 : Env) : Config × Env :=
  let env := dotenv env0
  let maxConn := (Atoi sz (getEnv env "MAX_DB_CONNECTIONS" "25")).1
  let redisDB := (Atoi sz (getEnv env "REDIS_DB" "0")).1
  let readTimeout := (Atoi sz (getEnv env "READ_TIMEOUT_SECONDS" "30")).1
  let writeTimeout := (Atoi sz (getEnv env "WRITE_TIMEOUT_SECONDS" "30")).1
  let enableMetrics := decide (getEnv env "ENABLE_METRICS" "true" = "true")
  let enableTracing := decide (getEnv env "ENABLE_TRACING" "false" = "true")
  ({ Port := getEnv env "GO_SERVICE_PORT" "8080"
     Host := getEnv env "GO_SERVICE_HOST" "0.0.0.0"
     Environment := getEnv env "GO_ENV" "development"
     DatabaseURL := osGetenv env "DATABASE_URL"
     DatabaseDriver := getEnv env "DATABASE_DRIVER" "postgres"
     MaxConnections := maxConn
     RedisHost := getEnv env "REDIS_HOST" "localhost"
     RedisPort := getEnv env "REDIS_PORT" "6379"
     RedisPassword := osGetenv env "REDIS_PASSWORD"
     RedisDB := redisDB
     StripeAPIKey := osGetenv env "STRIPE_API_KEY"
     TwilioSID := osGetenv env "TWILIO_ACCOUNT_SID"
     TwilioToken := osGetenv env "TWILIO_AUTH_TOKEN"
     DatadogAPIKey := osGetenv env "DATADOG_API_KEY"
     DatadogAppKey := osGetenv env "DATADOG_APP_KEY"
     EnableMetrics := enableMetrics
     EnableTracing := enableTracing
     ReadTimeout := wrapInt64 (wrapInt64 readTimeout * timeSecond)
     WriteTimeout := wrapInt64 (wrapInt64 writeTimeout * timeSecond) }, env)

/-! ## Health handler -/

/-- What a handler writes: the headers set and the body written. -/
structure Response where
  header : List (String × String)
  body : String

/-- Source `healthHandler` (main.go 102-109). `fmt.Sprintf` with `%s` on a
string operand inserts the operand unchanged. -/
def healthHandler (env : Env) : Response :=
  let e := osGetenv env "GO_ENV"
  let version := getEnv env "APP_VERSION" "1.0.0"
  let response :=
    "\x7b\"status\":\"ok\",\"environment\":\"" ++ e ++ "\",\"version\":\"" ++ version ++ "\"\x7d"
  { header := [("Content-Type", "application/json")], body := response }

/-! ## Server bootstrap -/

/-- One registered route of the router. -/
structure Route where
  path : String
  method : String
  handler : Env → Response

/-- The fields of `http.Server` that `main` fills in. -/
structure Server where
  Addr : String
  Handler : List Route
  ReadTimeout : Int
  WriteTimeout : Int

/-- The observable steps of the bootstrap, in order. `logFatal` ends the
process; a listener start blocks, so the trace ends there. -/
inductive Effect where
  | logFatal (msg : String)
  | logPrintf (msg : String)
  | listenAndServe (server : Server)
  | listenAndServeTLS (server : Server) (certFile keyFile : String)

/-- Source `main` (main.go 111-142). -/
def main (dotenv : Env → Env) (sz : IntSize) (env0 : Env) : List Effect :=
  let (config, env) := loadConfig dotenv sz env0
  if config.DatabaseURL = "" then
    [Effect.logFatal "DATABASE_URL is required"]
  else
    let router : List Route := [{ path := "/health", method := "GET", handler := healthHandler }]
    let addr := config.Host ++ ":" ++ config.Port
    let server : Server :=
      { Addr := addr, Handler := router
        ReadTimeout := config.ReadTimeout, WriteTimeout := config.WriteTimeout }
    let started :=
      Effect.logPrintf ("Starting server on " ++ addr ++ " in " ++ config.Environment ++ " mode")
    let tlsCertFile := osGetenv env "TLS_CERT_FILE"
    let tlsKeyFile := osGetenv env "TLS_KEY_FILE"
    if tlsCertFile ≠ "" ∧ tlsKeyFile ≠ "" then
      [started, Effect.listenAndServeTLS server tlsCertFile tlsKeyFile]
    else
      [started, Effect.listenAndServe server]

/-- A listener start occurs in the trace. -/
def Effect.isListen : Effect → Bool
  | .listenAndServe _ => true
  | .listenAndServeTLS _ _ _ => true
  | _ => false

/-- An environment given by a finite list of bindings (first binding wins). -/
def envOf (bindings : List (String × String)) : Env :=
  fun k => (bindings.find? (fun p => p.1 == k)).map (fun p => p.2)

/-- The variable is unset or set to the empty string. -/
def Unset (env : Env) (key : String) : Prop := env key = none ∨ env key = some ""

instance (env : Env) (key : String) : Decidable (Unset env key) := by
  unfold Unset; infer_instance

/-- The files of a TLS listener start. -/
def Effect.tlsFiles : Effect → Option (String × String)
  | .listenAndServeTLS _ c k => some (c, k)
  | _ => none

/-- The server of a plain-text listener start. -/
def Effect.plainServer : Effect → Option Server
  | .listenAndServe srv => some srv
  | _ => none

/-- The message of a fatal diagnostic. -/
def Effect.fatalMsg : Effect → Option String
  | .logFatal m => some m
  | _ => none

/-- A decimal digit `'0'..'9'`. -/
def isDecDigit (c : Char) : Bool := decide (48 ≤ c.toNat ∧ c.toNat ≤ 57)

/-- A numeric value in the sense of the specification: an optional sign
followed by one or more decimal digits. -/
def isNumeric (s : String) : Bool :=
  match s.data with
  | [] => false
  | c0 :: rest =>
    let body := if c0 = '+' ∨ c0 = '-' then rest else c0 :: rest
    !body.isEmpty && body.all isDecDigit

/-! ## Auxiliary definitions used in the statements and proofs -/

/-- The argument `ParseInt` hands to `ParseUint`: the input without its sign. -/
def stripSign (c0 : Char) (rest : List Char) : List Char :=
  if c0 = '+' then rest else if c0 = '-' then rest else c0 :: rest

/-- The guard of the fast path of `Atoi`. -/
def fastPath (sz : IntSize) (s : String) : Prop :=
  (sz.bits = 32 ∧ (0 < s.utf8ByteSize ∧ s.utf8ByteSize < 10)) ∨
  (sz.bits = 64 ∧ (0 < s.utf8ByteSize ∧ s.utf8ByteSize < 19))

/-- What is known of a result `r` of parsing `s`. -/
def ParseResult (sz : IntSize) (s : String) (r : Int × Option NumError) : Prop :=
  (r.2 = some .errSyntax → r.1 = 0) ∧
  (r.2 = some .errRange → r.1 = 2 ^ (sz.bits - 1) - 1 ∨ r.1 = -2 ^ (sz.bits - 1)) ∧
  (-2 ^ (sz.bits - 1) ≤ r.1 ∧ r.1 < 2 ^ (sz.bits - 1)) ∧
  (s.data.head? ≠ some '-' → 0 ≤ r.1) ∧
  (r.2 = none → isNumeric s = true)

/-- The digits the fast path of `Atoi` reads: the input without its sign. -/
def fastBody (c0 : Char) (rest : List Char) : List Char :=
  if decide (c0 = '-' ∨ c0 = '+') = true then rest else c0 :: rest

/-- The server `main` builds from the resolved configuration (main.go 123-129). -/
def serverOf (config : Config) : Server :=
  { Addr := config.Host ++ ":" ++ config.Port
    Handler := [{ path := "/health", method := "GET", handler := healthHandler }]
    ReadTimeout := config.ReadTimeout
    WriteTimeout := config.WriteTimeout }

/-- The line `main` logs before it starts listening (main.go 131). -/
def startLine (config : Config) : String :=
  "Starting server on " ++ (config.Host ++ ":" ++ config.Port) ++ " in " ++
    config.Environment ++ " mode"

/-- Byte length below which `Atoi` takes its fast path. -/
def fastLimit : IntSize → Nat
  | .bits32 => 10
  | .bits64 => 19

/-! ## Decimal reading of a value, stated on the string itself -/

/-- The number written by the decimal digits `cs`, read left to right and
continuing from `acc`. -/
def decimalFold : List Char → Nat → Nat
  | [], acc => acc
  | c :: cs, acc => decimalFold cs (acc * 10 + (c.toNat - 48))

/-- The number written by the decimal digits `cs`. -/
def decimalValue (cs : List Char) : Nat := decimalFold cs 0

/-- The value without its optional leading sign. -/
def signBody (s : String) : List Char :=
  match s.data with
  | [] => []
  | c0 :: rest => stripSign c0 rest

/-- The value begins with a minus sign. -/
def isNegative (s : String) : Bool :=
  match s.data with
  | [] => false
  | c0 :: _ => decide (c0 = '-')

/-- The decimal digits that precede the first character that is not a digit,
after the optional sign. -/
def digitPrefix (s : String) : List Char := (signBody s).takeWhile isDecDigit

/-- The integer a numeric value writes: its digits, negated after a minus sign. -/
def signedValue (s : String) : Int :=
  if isNegative s = true then -(decimalValue (signBody s) : Int)
  else (decimalValue (signBody s) : Int)

/-- The integer of largest magnitude of a `bits`-wide `int` with the sign of
the value: `-2^(bits-1)` after a minus sign, else `2^(bits-1) - 1`. -/
def clampOf (sz : IntSize) (s : String) : Int :=
  if isNegative s = true then -2 ^ (sz.bits - 1) else 2 ^ (sz.bits - 1) - 1

/-- The result of parsing the digits `body` with sign `neg` for a `bits`-wide
`int`, read off the string: a range error with the clamped extreme as soon as
the leading digits exceed `2^bits - 1`, else a syntax error with 0 when some
character is not a digit, else a range error when the signed value does not
fit, else the signed value. -/
def parseSpec (bits : Nat) (neg : Bool) (body : List Char) : Int × Option NumError :=
  if body = [] then (0, some .errSyntax)
  else if decimalFold (body.takeWhile isDecDigit) 0 > 2 ^ bits - 1 then
    (if neg = true then -2 ^ (bits - 1) else 2 ^ (bits - 1) - 1, some .errRange)
  else if body.all isDecDigit = false then (0, some .errSyntax)
  else if neg = false ∧ decimalFold body 0 ≥ 2 ^ (bits - 1) then
    (2 ^ (bits - 1) - 1, some .errRange)
  else if neg = true ∧ decimalFold body 0 > 2 ^ (bits - 1) then
    (-2 ^ (bits - 1), some .errRange)
  else (if neg = true then -(decimalFold body 0 : Int) else (decimalFold body 0 : Int), none)

/-! ## Facts about the parsers -/

theorem digitOf_lt_ten {c : Char} {d : Nat} (h : digitOf c = some d) (hd : d < 10) :
    isDecDigit c = true := by
  unfold digitOf at h
  simp only at h
  split_ifs at h with h1 h2
  · simp [isDecDigit, h1]
  · simp only [Option.some.injEq] at h
    omega

theorem parseUintLoop_facts (cutoff maxVal : Nat) (cs : List Char) :
    ∀ n, ((parseUintLoop 10 cutoff maxVal cs n).2 = some .errSyntax →
            (parseUintLoop 10 cutoff maxVal cs n).1 = 0) ∧
          ((parseUintLoop 10 cutoff maxVal cs n).2 = some .errRange →
            (parseUintLoop 10 cutoff maxVal cs n).1 = maxVal) ∧
          ((parseUintLoop 10 cutoff maxVal cs n).2 = none →
            (n ≤ maxVal → (parseUintLoop 10 cutoff maxVal cs n).1 ≤ maxVal) ∧
            cs.all isDecDigit = true) := by
  induction cs with
  | nil => intro n; simp [parseUintLoop]
  | cons c cs ih =>
    intro n
    unfold parseUintLoop
    cases hd : digitOf c with
    | none => simp
    | some d =>
      simp only
      by_cases h1 : d ≥ 10
      · simp [h1]
      · by_cases h2 : n ≥ cutoff
        · simp [h1, h2]
        · by_cases h3 : (n * 10 % 2 ^ 64 + d) % 2 ^ 64 < n * 10 % 2 ^ 64 ∨
              (n * 10 % 2 ^ 64 + d) % 2 ^ 64 > maxVal
          · simp only [h1, h2, h3, if_true, if_false]
            simp
          · simp only [h1, h2, h3, if_false]
            have hc : isDecDigit c = true := digitOf_lt_ten hd (by omega)
            have hn1 : (n * 10 % 2 ^ 64 + d) % 2 ^ 64 ≤ maxVal := by
              have := h3
              push_neg at this
              exact this.2
            obtain ⟨a, b, e⟩ := ih ((n * 10 % 2 ^ 64 + d) % 2 ^ 64)
            refine ⟨a, b, fun hnone => ⟨fun _ => (e hnone).1 hn1, ?_⟩⟩
            simp [List.all_cons, hc, (e hnone).2]

/-- The value `maxVal` of `ParseUint` is `2^bits - 1`. -/
theorem maxVal_eq (sz : IntSize) :
    ((2 ^ sz.bits) % 2 ^ 64 + 2 ^ 64 - 1) % 2 ^ 64 = 2 ^ sz.bits - 1 := by
  cases sz <;> decide

theorem ParseUint_facts (sz : IntSize) (s : List Char) :
    ((ParseUint sz s).2 = some .errSyntax → (ParseUint sz s).1 = 0) ∧
    ((ParseUint sz s).2 = some .errRange → (ParseUint sz s).1 = 2 ^ sz.bits - 1) ∧
    ((ParseUint sz s).2 = none →
      (ParseUint sz s).1 ≤ 2 ^ sz.bits - 1 ∧ s ≠ [] ∧ s.all isDecDigit = true) := by
  unfold ParseUint
  by_cases hs : s = []
  · simp [hs]
  · simp only [hs, if_false, maxVal_eq]
    obtain ⟨a, b, c⟩ := parseUintLoop_facts (maxUint64 / 10 + 1) (2 ^ sz.bits - 1) s 0
    exact ⟨a, b, fun h => ⟨(c h).1 (Nat.zero_le _), hs, (c h).2⟩⟩

theorem ParseInt_cons (sz : IntSize) (c0 : Char) (rest : List Char) :
    ParseInt sz (c0 :: rest) =
      if (ParseUint sz (stripSign c0 rest)).2 = some .errSyntax then
        (0, (ParseUint sz (stripSign c0 rest)).2)
      else if decide (c0 = '-') = false ∧ (ParseUint sz (stripSign c0 rest)).1 ≥ 2 ^ (sz.bits - 1)
        then (((2 ^ (sz.bits - 1) - 1 : Nat) : Int), some .errRange)
      else if decide (c0 = '-') = true ∧ (ParseUint sz (stripSign c0 rest)).1 > 2 ^ (sz.bits - 1)
        then (-((2 ^ (sz.bits - 1) : Nat) : Int), some .errRange)
      else (if decide (c0 = '-') = true then -((ParseUint sz (stripSign c0 rest)).1 : Int)
            else ((ParseUint sz (stripSign c0 rest)).1 : Int), none) := by
  simp only [ParseInt, stripSign]

theorem pow_bits_pos (sz : IntSize) : 2 ^ (sz.bits - 1) < 2 ^ sz.bits - 1 ∧ 0 < 2 ^ (sz.bits - 1) := by
  cases sz <;> decide

theorem ParseInt_facts (sz : IntSize) (s : List Char) :
    ((ParseInt sz s).2 = some .errSyntax → (ParseInt sz s).1 = 0) ∧
    ((ParseInt sz s).2 = some .errRange →
      (ParseInt sz s).1 = 2 ^ (sz.bits - 1) - 1 ∨ (ParseInt sz s).1 = -2 ^ (sz.bits - 1)) ∧
    (-2 ^ (sz.bits - 1) ≤ (ParseInt sz s).1 ∧ (ParseInt sz s).1 < 2 ^ (sz.bits - 1)) ∧
    (s.head? ≠ some '-' → 0 ≤ (ParseInt sz s).1) ∧
    ((ParseInt sz s).2 = none → isNumeric ⟨s⟩ = true) := by
  have hp := pow_bits_pos sz
  have hpz : (0 : Int) < 2 ^ (sz.bits - 1) := by positivity
  cases s with
  | nil => simp [ParseInt]
  | cons c0 rest =>
    rw [ParseInt_cons]
    obtain ⟨u1, u2, u3⟩ := ParseUint_facts sz (stripSign c0 rest)
    generalize hun : (ParseUint sz (stripSign c0 rest)).1 = un at *
    generalize herr : (ParseUint sz (stripSign c0 rest)).2 = err at *
    by_cases e1 : err = some .errSyntax
    · simp only [e1, if_true]
      simp
    · simp only [e1, if_false]
      have hcast : ((2 ^ (sz.bits - 1) : Nat) : Int) = 2 ^ (sz.bits - 1) := by push_cast; rfl
      by_cases e2 : decide (c0 = '-') = false ∧ un ≥ 2 ^ (sz.bits - 1)
      · simp only [e2, and_self, if_true]
        have h1 : (((2 ^ (sz.bits - 1) - 1 : Nat)) : Int) = 2 ^ (sz.bits - 1) - 1 := by
          rw [Nat.cast_sub hp.2]; push_cast; rfl
        rw [h1]
        refine ⟨by simp, fun _ => Or.inl rfl, ⟨by omega, by omega⟩, fun _ => by omega, by simp⟩
      · simp only [e2, if_false]
        by_cases e3 : decide (c0 = '-') = true ∧ un > 2 ^ (sz.bits - 1)
        · simp only [e3, and_self, if_true]
          rw [hcast]
          have hneg : c0 = '-' := by simpa using e3.1
          refine ⟨by simp, fun _ => Or.inr rfl, ⟨le_refl _, by omega⟩, ?_, by simp⟩
          intro h; simp [hneg] at h
        · simp only [e3, if_false]
          have herrn : err = none := by
            cases err with
            | none => rfl
            | some k =>
              cases k with
              | errSyntax => exact absurd rfl e1
              | errRange =>
                exfalso
                have hv := u2 rfl
                by_cases hc : c0 = '-'
                · apply e3; simp [hc]; omega
                · apply e2; simp [hc]; omega
          obtain ⟨hle, hne, hall⟩ := u3 herrn
          refine ⟨by simp, by simp, ?_, ?_, ?_⟩
          · by_cases hc : c0 = '-'
            · have : ¬ un > 2 ^ (sz.bits - 1) := fun h => e3 ⟨by simp [hc], h⟩
              simp only [hc, decide_True, if_true]
              have h2 : ((un : Nat) : Int) ≤ ((2 ^ (sz.bits - 1) : Nat) : Int) := by
                exact_mod_cast Nat.le_of_not_gt this
              rw [hcast] at h2
              constructor <;> omega
            · have : ¬ un ≥ 2 ^ (sz.bits - 1) := fun h => e2 ⟨by simp [hc], h⟩
              simp only [hc, decide_False, if_false]
              have h2 : ((un : Nat) : Int) < ((2 ^ (sz.bits - 1) : Nat) : Int) := by
                exact_mod_cast Nat.lt_of_not_ge this
              rw [hcast] at h2
              constructor <;> omega
          · intro h
            have hc : c0 ≠ '-' := by simpa using h
            simp [hc]
          · intro _
            simp only [isNumeric]
            have : (if c0 = '+' ∨ c0 = '-' then rest else c0 :: rest) = stripSign c0 rest := by
              unfold stripSign
              by_cases a : c0 = '+' <;> by_cases b : c0 = '-' <;> simp [a, b]
            simp only [this, hall, Bool.and_true]
            cases hstr : stripSign c0 rest with
            | nil => exact absurd hstr hne
            | cons _ _ => rfl

theorem length_le_utf8ByteSize_go (cs : List Char) :
    cs.length ≤ String.utf8ByteSize.go cs := by
  induction cs with
  | nil => simp [String.utf8ByteSize.go]
  | cons c cs ih =>
    have := c.utf8Size_pos
    simp only [String.utf8ByteSize.go, List.length_cons]
    omega

theorem length_le_utf8ByteSize (s : String) : s.data.length ≤ s.utf8ByteSize := by
  cases s with
  | mk cs => exact length_le_utf8ByteSize_go cs

theorem atoiLoop_facts (cs : List Char) :
    ∀ n m, atoiLoop cs n = some m →
      m < (n + 1) * 10 ^ cs.length ∧ cs.all isDecDigit = true := by
  induction cs with
  | nil => intro n m h; simp [atoiLoop] at h; subst h; simp
  | cons c cs ih =>
    intro n m h
    unfold atoiLoop at h
    by_cases hc : 48 ≤ c.toNat ∧ c.toNat ≤ 57
    · simp only [hc, and_self, if_true] at h
      obtain ⟨h1, h2⟩ := ih _ _ h
      refine ⟨?_, by simp [List.all_cons, isDecDigit, hc, h2]⟩
      have h3 : n * 10 + (c.toNat - 48) + 1 ≤ (n + 1) * 10 := by omega
      calc m < (n * 10 + (c.toNat - 48) + 1) * 10 ^ cs.length := h1
        _ ≤ ((n + 1) * 10) * 10 ^ cs.length := Nat.mul_le_mul_right _ h3
        _ = (n + 1) * 10 ^ (c :: cs).length := by
            rw [List.length_cons, pow_succ]; ring
    · simp [hc] at h

theorem wrapSigned_of_range (sz : IntSize) (x : Int)
    (h : -2 ^ (sz.bits - 1) ≤ x ∧ x < 2 ^ (sz.bits - 1)) : toInt sz x = x := by
  unfold toInt wrapSigned
  cases sz <;> simp only [IntSize.bits] at h ⊢ <;> norm_num at h ⊢ <;> omega

theorem wrapInt64_of_range (x : Int)
    (h : -9223372036854775808 ≤ x ∧ x < 9223372036854775808) : wrapInt64 x = x := by
  unfold wrapInt64 wrapSigned
  norm_num
  omega

theorem ParseResult_zero (sz : IntSize) (s : String) :
    ParseResult sz s (0, some .errSyntax) := by
  have hpz : (0 : Int) < 2 ^ (sz.bits - 1) := by positivity
  refine ⟨fun _ => rfl, by simp, ⟨by simp only; omega, hpz⟩, fun _ => le_refl _, by simp⟩

theorem Atoi_slow (sz : IntSize) (s : String) (h : ¬ fastPath sz s) :
    Atoi sz s = (toInt sz (ParseInt sz s.data).1, (ParseInt sz s.data).2) := by
  unfold fastPath at h
  simp only [Atoi, h, if_false]

theorem Atoi_fast (sz : IntSize) (s : String) (h : fastPath sz s) (c0 : Char)
    (rest : List Char) (hs : s.data = c0 :: rest) :
    Atoi sz s =
      if decide (c0 = '-' ∨ c0 = '+') = true ∧ fastBody c0 rest = [] then
        (0, some .errSyntax)
      else
        match atoiLoop (fastBody c0 rest) 0 with
        | none => (0, some .errSyntax)
        | some n => (if c0 = '-' then -(n : Int) else (n : Int), none) := by
  unfold fastPath at h
  simp only [Atoi, h, if_true, hs, fastBody]

theorem fastPath_pow (sz : IntSize) (s : String) (h : fastPath sz s) (k : Nat)
    (hk : k ≤ s.data.length) : (10 ^ k : Int) ≤ 2 ^ (sz.bits - 1) := by
  have hl := length_le_utf8ByteSize s
  unfold fastPath at h
  cases sz with
  | bits32 =>
    simp only [IntSize.bits] at h ⊢
    have hk9 : k ≤ 9 := by omega
    calc (10 ^ k : Int) ≤ 10 ^ 9 := pow_le_pow_right₀ (by norm_num) hk9
      _ ≤ 2 ^ (32 - 1) := by norm_num
  | bits64 =>
    simp only [IntSize.bits] at h ⊢
    have hk18 : k ≤ 18 := by omega
    calc (10 ^ k : Int) ≤ 10 ^ 18 := pow_le_pow_right₀ (by norm_num) hk18
      _ ≤ 2 ^ (64 - 1) := by norm_num

theorem Atoi_facts (sz : IntSize) (s : String) :
    ParseResult sz s (Atoi sz s) ∧ (fastPath sz s → (Atoi sz s).2 ≠ some .errRange) := by
  by_cases hf : fastPath sz s
  · cases hs : s.data with
    | nil =>
      have : Atoi sz s = (0, some .errSyntax) := by
        unfold fastPath at hf
        simp only [Atoi, hf, if_true, hs]
      rw [this]
      exact ⟨ParseResult_zero sz s, fun _ => by simp⟩
    | cons c0 rest =>
      rw [Atoi_fast sz s hf c0 rest hs]
      have hlen : (fastBody c0 rest).length ≤ s.data.length := by
        rw [hs]; unfold fastBody; split_ifs <;> simp
      have hb2 : (if c0 = '+' ∨ c0 = '-' then rest else c0 :: rest) = fastBody c0 rest := by
        unfold fastBody
        by_cases a : c0 = '+' <;> by_cases b : c0 = '-' <;> simp [a, b]
      have hne : ¬ (decide (c0 = '-' ∨ c0 = '+') = true ∧ fastBody c0 rest = []) →
          fastBody c0 rest ≠ [] := by
        intro h1 hbody
        apply h1
        refine ⟨?_, hbody⟩
        by_contra hns
        simp only [fastBody, hns, if_false] at hbody
        exact List.cons_ne_nil _ _ hbody
      generalize fastBody c0 rest = body at *
      by_cases h1 : decide (c0 = '-' ∨ c0 = '+') = true ∧ body = []
      · rw [if_pos h1]
        exact ⟨ParseResult_zero sz s, fun _ => by simp⟩
      · rw [if_neg h1]
        cases hl : atoiLoop body 0 with
        | none => exact ⟨ParseResult_zero sz s, fun _ => by simp⟩
        | some n =>
          simp only
          obtain ⟨hb, hall⟩ := atoiLoop_facts _ _ _ hl
          have hpow := fastPath_pow sz s hf _ hlen
          have hn : (n : Int) < 2 ^ (sz.bits - 1) := by
            have : (n : Int) < 10 ^ body.length := by
              have := hb
              simp only [zero_add, one_mul] at this
              exact_mod_cast this
            omega
          have hn0 : (0 : Int) ≤ n := Int.natCast_nonneg n
          refine ⟨⟨by simp, by simp, ?_, ?_, ?_⟩, fun _ => by simp⟩
          · by_cases hc : c0 = '-'
            · simp only [hc, if_true]; constructor <;> omega
            · simp only [hc, if_false]; constructor <;> omega
          · intro hh
            have hc : c0 ≠ '-' := by simpa [hs] using hh
            simp only [hc, if_false]
            exact hn0
          · intro _
            simp only [isNumeric, hs, hb2, hall, Bool.and_true]
            cases hbody : body with
            | nil => exact absurd hbody (hne h1)
            | cons _ _ => rfl
  · rw [Atoi_slow sz s hf]
    obtain ⟨p1, p2, p3, p4, p5⟩ := ParseInt_facts sz s.data
    rw [wrapSigned_of_range sz _ p3]
    exact ⟨⟨p1, p2, p3, p4, p5⟩, fun h => absurd h hf⟩

/-! ## The parsers compute the decimal reading -/

theorem decimalFold_ge (cs : List Char) : ∀ acc, acc ≤ decimalFold cs acc := by
  induction cs with
  | nil => intro acc; simp [decimalFold]
  | cons c cs ih =>
    intro acc
    simp only [decimalFold]
    have := ih (acc * 10 + (c.toNat - 48))
    omega

theorem decimalFold_lt (cs : List Char) :
    ∀ acc, cs.all isDecDigit = true → decimalFold cs acc < (acc + 1) * 10 ^ cs.length := by
  induction cs with
  | nil => intro acc _; simp [decimalFold]
  | cons c cs ih =>
    intro acc h
    simp only [List.all_cons, Bool.and_eq_true] at h
    have hc : 48 ≤ c.toNat ∧ c.toNat ≤ 57 := by simpa [isDecDigit] using h.1
    simp only [decimalFold]
    have h1 := ih (acc * 10 + (c.toNat - 48)) h.2
    have h3 : acc * 10 + (c.toNat - 48) + 1 ≤ (acc + 1) * 10 := by omega
    calc decimalFold cs (acc * 10 + (c.toNat - 48))
        < (acc * 10 + (c.toNat - 48) + 1) * 10 ^ cs.length := h1
      _ ≤ ((acc + 1) * 10) * 10 ^ cs.length := Nat.mul_le_mul_right _ h3
      _ = (acc + 1) * 10 ^ (c :: cs).length := by
          rw [List.length_cons, pow_succ]; ring

theorem digitOf_of_digit {c : Char} (h : isDecDigit c = true) :
    digitOf c = some (c.toNat - 48) ∧ c.toNat - 48 < 10 := by
  have hc : 48 ≤ c.toNat ∧ c.toNat ≤ 57 := by simpa [isDecDigit] using h
  refine ⟨by simp [digitOf, hc], by omega⟩

theorem digitOf_of_nondigit {c : Char} (h : isDecDigit c = false) :
    digitOf c = none ∨ ∃ d, digitOf c = some d ∧ d ≥ 10 := by
  have hc : ¬ (48 ≤ c.toNat ∧ c.toNat ≤ 57) := by simpa [isDecDigit] using h
  unfold digitOf
  simp only [hc, if_false]
  split_ifs
  · exact Or.inr ⟨_, rfl, by omega⟩
  · exact Or.inl rfl

theorem parseUintLoop_spec (maxVal : Nat) (hmax : maxVal ≤ maxUint64) (cs : List Char) :
    ∀ n, n ≤ maxVal →
      parseUintLoop 10 (maxUint64 / 10 + 1) maxVal cs n =
        if decimalFold (cs.takeWhile isDecDigit) n > maxVal then (maxVal, some .errRange)
        else if cs.all isDecDigit = false then (0, some .errSyntax)
        else (decimalFold cs n, none) := by
  have hmu : maxUint64 = 18446744073709551615 := by decide
  rw [hmu] at hmax ⊢
  induction cs with
  | nil =>
    intro n hn
    simp [parseUintLoop, decimalFold, Nat.not_lt.2 hn]
  | cons c cs ih =>
    intro n hn
    unfold parseUintLoop
    cases hc : isDecDigit c with
    | true =>
      obtain ⟨hd, hd10⟩ := digitOf_of_digit hc
      have hge := decimalFold_ge (cs.takeWhile isDecDigit) (n * 10 + (c.toNat - 48))
      simp only [hd, List.takeWhile_cons, hc, if_true, decimalFold, List.all_cons, Bool.true_and]
      rw [if_neg (by omega)]
      by_cases h2 : n ≥ 18446744073709551615 / 10 + 1
      · rw [if_pos h2, if_pos (by omega)]
      · rw [if_neg h2]
        have hmod : n * 10 % 2 ^ 64 = n * 10 := Nat.mod_eq_of_lt (by omega)
        simp only [hmod]
        by_cases h3 : n * 10 + (c.toNat - 48) < 2 ^ 64
        · have hmod2 : (n * 10 + (c.toNat - 48)) % 2 ^ 64 = n * 10 + (c.toNat - 48) :=
            Nat.mod_eq_of_lt h3
          simp only [hmod2]
          by_cases h4 : n * 10 + (c.toNat - 48) > maxVal
          · rw [if_pos (Or.inr h4), if_pos (by omega)]
          · rw [if_neg (by omega)]
            exact ih _ (by omega)
        · have hlt : (n * 10 + (c.toNat - 48)) % 2 ^ 64 < n * 10 := by omega
          rw [if_pos (Or.inl hlt), if_pos (by omega)]
    | false =>
      simp only [List.takeWhile_cons, hc, decimalFold, List.all_cons, Bool.false_and]
      rw [if_neg (by simp; omega)]
      rcases digitOf_of_nondigit hc with h | ⟨d, h, hd⟩
      · simp [h]
      · simp [h, hd]

theorem atoiLoop_spec (cs : List Char) :
    ∀ n, atoiLoop cs n = if cs.all isDecDigit = true then some (decimalFold cs n) else none := by
  induction cs with
  | nil => intro n; simp [atoiLoop, decimalFold]
  | cons c cs ih =>
    intro n
    unfold atoiLoop
    by_cases hc : 48 ≤ c.toNat ∧ c.toNat ≤ 57
    · have hd : isDecDigit c = true := by simp [isDecDigit, hc]
      simp only [hc, and_self, if_true, ih, List.all_cons, hd, Bool.true_and, decimalFold]
    · have hd : isDecDigit c = false := by simp [isDecDigit, hc]
      simp [hc, List.all_cons, hd]

theorem ParseUint_spec (sz : IntSize) (s : List Char) (hs : s ≠ []) :
    ParseUint sz s =
      if decimalFold (s.takeWhile isDecDigit) 0 > 2 ^ sz.bits - 1 then
        (2 ^ sz.bits - 1, some .errRange)
      else if s.all isDecDigit = false then (0, some .errSyntax)
      else (decimalFold s 0, none) := by
  unfold ParseUint
  simp only [hs, if_false, maxVal_eq]
  exact parseUintLoop_spec (2 ^ sz.bits - 1) (by cases sz <;> decide) s 0 (Nat.zero_le _)

theorem ParseInt_spec (sz : IntSize) (c0 : Char) (rest : List Char) :
    ParseInt sz (c0 :: rest) = parseSpec sz.bits (decide (c0 = '-')) (stripSign c0 rest) := by
  have hp := pow_bits_pos sz
  have hcast : ((2 ^ (sz.bits - 1) : Nat) : Int) = 2 ^ (sz.bits - 1) := by push_cast; rfl
  have hcast1 : (((2 ^ (sz.bits - 1) - 1 : Nat)) : Int) = 2 ^ (sz.bits - 1) - 1 := by
    rw [Nat.cast_sub hp.2]; push_cast; rfl
  rw [ParseInt_cons]
  generalize stripSign c0 rest = body
  unfold parseSpec
  by_cases hb : body = []
  · subst hb; simp [ParseUint]
  · have hU := ParseUint_spec sz body hb
    rw [if_neg hb]
    by_cases hover : decimalFold (body.takeWhile isDecDigit) 0 > 2 ^ sz.bits - 1
    · rw [if_pos hover] at hU ⊢
      rw [hU]
      simp only
      rw [if_neg (by simp)]
      cases hneg : decide (c0 = '-') with
      | false =>
        rw [if_pos ⟨rfl, by omega⟩]
        simp [hcast1]
      | true =>
        rw [if_neg (by simp), if_pos ⟨rfl, by omega⟩]
        simp [hcast]
    · rw [if_neg hover] at hU ⊢
      by_cases hall : body.all isDecDigit = false
      · rw [if_pos hall] at hU ⊢
        rw [hU]
        simp
      · rw [if_neg hall] at hU ⊢
        rw [hU]
        simp only
        rw [if_neg (by simp)]
        simp only [hcast, hcast1]

theorem stripSign_eq_fastBody (c0 : Char) (rest : List Char) :
    fastBody c0 rest = stripSign c0 rest := by
  unfold fastBody stripSign
  by_cases a : c0 = '+' <;> by_cases b : c0 = '-' <;> simp [a, b]

theorem digitPrefix_lt (cs : List Char) :
    decimalFold (cs.takeWhile isDecDigit) 0 < 10 ^ cs.length := by
  have h1 := decimalFold_lt (cs.takeWhile isDecDigit) 0 List.all_takeWhile
  have h2 : (cs.takeWhile isDecDigit).length ≤ cs.length :=
    (List.takeWhile_sublist isDecDigit).length_le
  have h3 : 10 ^ (cs.takeWhile isDecDigit).length ≤ 10 ^ cs.length :=
    Nat.pow_le_pow_right (by norm_num) h2
  omega

theorem takeWhile_of_all (cs : List Char) (h : ¬ cs.all isDecDigit = false) :
    cs.takeWhile isDecDigit = cs := by
  rw [List.takeWhile_eq_self_iff]
  have h' : cs.all isDecDigit = true := by simpa using h
  exact List.all_eq_true.1 h'

theorem fastPath_pow_nat (sz : IntSize) (s : String) (h : fastPath sz s) (k : Nat)
    (hk : k ≤ s.data.length) : 10 ^ k ≤ 2 ^ (sz.bits - 1) := by
  have := fastPath_pow sz s h k hk
  exact_mod_cast this

/-- `Atoi` computes the decimal reading of its argument. -/
theorem Atoi_eq_spec (sz : IntSize) (s : String) :
    Atoi sz s = parseSpec sz.bits (isNegative s) (signBody s) := by
  have hp := pow_bits_pos sz
  by_cases hf : fastPath sz s
  · cases hs : s.data with
    | nil =>
      have : Atoi sz s = (0, some .errSyntax) := by
        unfold fastPath at hf
        simp only [Atoi, hf, if_true, hs]
      rw [this]
      simp [parseSpec, signBody, hs]
    | cons c0 rest =>
      rw [Atoi_fast sz s hf c0 rest hs]
      have hlen : (fastBody c0 rest).length ≤ s.data.length := by
        rw [hs]; unfold fastBody; split_ifs <;> simp
      have hne : ¬ (decide (c0 = '-' ∨ c0 = '+') = true ∧ fastBody c0 rest = []) →
          fastBody c0 rest ≠ [] := by
        intro h1 hbody
        apply h1
        refine ⟨?_, hbody⟩
        by_contra hns
        simp only [fastBody, hns, if_false] at hbody
        exact List.cons_ne_nil _ _ hbody
      have hsb : signBody s = fastBody c0 rest := by
        simp only [signBody, hs, stripSign_eq_fastBody]
      have hng : isNegative s = decide (c0 = '-') := by
        simp only [isNegative, hs]
      rw [hsb, hng]
      generalize fastBody c0 rest = body at *
      have hpow := fastPath_pow_nat sz s hf _ hlen
      have hpre := digitPrefix_lt body
      unfold parseSpec
      by_cases h1 : decide (c0 = '-' ∨ c0 = '+') = true ∧ body = []
      · rw [if_pos h1, if_pos h1.2]
      · rw [if_neg h1, if_neg (hne h1), if_neg (by omega), atoiLoop_spec]
        by_cases hall : body.all isDecDigit = false
        · rw [if_pos hall]
          simp [hall]
        · have hall' : body.all isDecDigit = true := by simpa using hall
          have hm : decimalFold body 0 < 10 ^ body.length := by
            have := takeWhile_of_all body hall
            rw [this] at hpre
            exact hpre
          have hc1 : ¬ (decide (c0 = '-') = false ∧ decimalFold body 0 ≥ 2 ^ (sz.bits - 1)) :=
            fun h => by have := h.2; omega
          have hc2 : ¬ (decide (c0 = '-') = true ∧ decimalFold body 0 > 2 ^ (sz.bits - 1)) :=
            fun h => by have := h.2; omega
          rw [if_neg hall, if_neg hc1, if_neg hc2]
          simp [hall']
  · rw [Atoi_slow sz s hf]
    rw [wrapSigned_of_range sz _ (ParseInt_facts sz s.data).2.2.1]
    cases hs : s.data with
    | nil => simp [ParseInt, parseSpec, signBody, hs]
    | cons c0 rest =>
      rw [ParseInt_spec]
      simp only [signBody, isNegative, hs]

theorem parseSpec_numeric (sz : IntSize) (neg : Bool) (body : List Char) (hb : body ≠ [])
    (hall : body.all isDecDigit = true) :
    ((-2 ^ (sz.bits - 1) ≤ (if neg = true then -(decimalFold body 0 : Int)
          else (decimalFold body 0 : Int)) ∧
        (if neg = true then -(decimalFold body 0 : Int) else (decimalFold body 0 : Int))
          < 2 ^ (sz.bits - 1)) →
      parseSpec sz.bits neg body =
        (if neg = true then -(decimalFold body 0 : Int) else (decimalFold body 0 : Int), none)) ∧
    (¬ (-2 ^ (sz.bits - 1) ≤ (if neg = true then -(decimalFold body 0 : Int)
          else (decimalFold body 0 : Int)) ∧
        (if neg = true then -(decimalFold body 0 : Int) else (decimalFold body 0 : Int))
          < 2 ^ (sz.bits - 1)) →
      parseSpec sz.bits neg body =
        (if neg = true then -2 ^ (sz.bits - 1) else 2 ^ (sz.bits - 1) - 1, some .errRange)) := by
  have htw : body.takeWhile isDecDigit = body :=
    takeWhile_of_all body (by simp [hall])
  unfold parseSpec
  rw [if_neg hb, htw]
  simp only [hall, Bool.true_eq_false, if_false]
  generalize decimalFold body 0 = m
  have a1 : (2 : Nat) ^ (32 - 1) = 2147483648 := by norm_num
  have a2 : (2 : Int) ^ (32 - 1) = 2147483648 := by norm_num
  have a3 : (2 : Nat) ^ 32 - 1 = 4294967295 := by norm_num
  have b1 : (2 : Nat) ^ (64 - 1) = 9223372036854775808 := by norm_num
  have b2 : (2 : Int) ^ (64 - 1) = 9223372036854775808 := by norm_num
  have b3 : (2 : Nat) ^ 64 - 1 = 18446744073709551615 := by norm_num
  cases sz <;> cases neg <;>
    simp only [IntSize.bits, a1, a2, a3, b1, b2, b3, Bool.false_eq_true, Bool.true_eq_false,
      if_false, if_true, true_and, false_and] <;>
    constructor <;> intro h <;> split_ifs <;> first | rfl | (exfalso; omega)

theorem parseSpec_nonNumeric (sz : IntSize) (neg : Bool) (body : List Char)
    (h : body = [] ∨ body.all isDecDigit = false) :
    (decimalFold (body.takeWhile isDecDigit) 0 ≤ 2 ^ sz.bits - 1 →
      parseSpec sz.bits neg body = (0, some .errSyntax)) ∧
    (decimalFold (body.takeWhile isDecDigit) 0 > 2 ^ sz.bits - 1 →
      parseSpec sz.bits neg body =
        (if neg = true then -2 ^ (sz.bits - 1) else 2 ^ (sz.bits - 1) - 1, some .errRange)) := by
  unfold parseSpec
  rcases h with h | h
  · subst h
    refine ⟨fun _ => by simp, fun hgt => ?_⟩
    simp [decimalFold] at hgt
  · by_cases hb : body = []
    · subst hb; simp at h
    · rw [if_neg hb]
      refine ⟨fun hle => ?_, fun hgt => ?_⟩
      · rw [if_neg (by omega), if_pos h]
      · rw [if_pos hgt]

theorem fastPath_of_short (sz : IntSize) (v : String) (hne : v ≠ "")
    (h : v.utf8ByteSize < fastLimit sz) : fastPath sz v := by
  have hl := length_le_utf8ByteSize v
  have hd : v.data ≠ [] := by
    intro h0
    apply hne
    cases v with
    | mk cs => simp only at h0; subst h0; rfl
  have hpos : 0 < v.data.length := List.length_pos.2 hd
  unfold fastPath
  cases sz with
  | bits32 => left; simp only [fastLimit] at h; exact ⟨rfl, by omega, h⟩
  | bits64 => right; simp only [fastLimit] at h; exact ⟨rfl, by omega, h⟩

theorem isNumeric_iff (s : String) :
    isNumeric s = true ↔ signBody s ≠ [] ∧ (signBody s).all isDecDigit = true := by
  unfold isNumeric signBody
  cases hs : s.data with
  | nil => simp
  | cons c0 rest =>
    have hb : (if c0 = '+' ∨ c0 = '-' then rest else c0 :: rest) = stripSign c0 rest := by
      unfold stripSign
      by_cases a : c0 = '+' <;> by_cases b : c0 = '-' <;> simp [a, b]
    simp only [hb]
    cases stripSign c0 rest with
    | nil => simp
    | cons x xs => simp

theorem signBody_length_le (s : String) : (signBody s).length ≤ s.data.length := by
  unfold signBody
  cases s.data with
  | nil => simp
  | cons c0 rest => simp only [stripSign]; split_ifs <;> simp

/-- The four possible outcomes of `Atoi`, told apart on the string. -/
theorem Atoi_cases (sz : IntSize) (v : String) :
    (isNumeric v = true ∧
      (-2 ^ (sz.bits - 1) ≤ signedValue v ∧ signedValue v < 2 ^ (sz.bits - 1)) ∧
      Atoi sz v = (signedValue v, none)) ∨
    (isNumeric v = true ∧
      ¬ (-2 ^ (sz.bits - 1) ≤ signedValue v ∧ signedValue v < 2 ^ (sz.bits - 1)) ∧
      Atoi sz v = (clampOf sz v, some .errRange)) ∨
    (isNumeric v = false ∧ decimalValue (digitPrefix v) ≤ 2 ^ sz.bits - 1 ∧
      Atoi sz v = (0, some .errSyntax)) ∨
    (isNumeric v = false ∧ decimalValue (digitPrefix v) > 2 ^ sz.bits - 1 ∧
      Atoi sz v = (clampOf sz v, some .errRange)) := by
  rw [Atoi_eq_spec]
  unfold signedValue clampOf decimalValue digitPrefix
  cases hn : isNumeric v with
  | true =>
    obtain ⟨hb, hall⟩ := (isNumeric_iff v).1 hn
    obtain ⟨h1, h2⟩ := parseSpec_numeric sz (isNegative v) (signBody v) hb hall
    by_cases hr : -2 ^ (sz.bits - 1) ≤ (if isNegative v = true then
          -(decimalFold (signBody v) 0 : Int) else (decimalFold (signBody v) 0 : Int)) ∧
        (if isNegative v = true then -(decimalFold (signBody v) 0 : Int)
          else (decimalFold (signBody v) 0 : Int)) < 2 ^ (sz.bits - 1)
    · exact Or.inl ⟨rfl, hr, h1 hr⟩
    · exact Or.inr (Or.inl ⟨rfl, hr, h2 hr⟩)
  | false =>
    have hnn : signBody v = [] ∨ (signBody v).all isDecDigit = false := by
      by_cases hb : signBody v = []
      · exact Or.inl hb
      · right
        by_contra hall
        have : isNumeric v = true := (isNumeric_iff v).2 ⟨hb, by simpa using hall⟩
        rw [hn] at this
        exact absurd this (by decide)
    obtain ⟨h1, h2⟩ := parseSpec_nonNumeric sz (isNegative v) (signBody v) hnn
    by_cases ho : decimalFold ((signBody v).takeWhile isDecDigit) 0 ≤ 2 ^ sz.bits - 1
    · exact Or.inr (Or.inr (Or.inl ⟨rfl, ho, h1 ho⟩))
    · have ho' : decimalFold ((signBody v).takeWhile isDecDigit) 0 > 2 ^ sz.bits - 1 := by omega
      exact Or.inr (Or.inr (Or.inr ⟨rfl, ho', h2 ho'⟩))

theorem short_prefix_fits (sz : IntSize) (v : String) (hne : v ≠ "")
    (h : v.utf8ByteSize < fastLimit sz) : decimalValue (digitPrefix v) ≤ 2 ^ sz.bits - 1 := by
  have hf := fastPath_of_short sz v hne h
  have h1 := digitPrefix_lt (signBody v)
  have h2 := fastPath_pow_nat sz v hf _ (signBody_length_le v)
  have hp := pow_bits_pos sz
  unfold decimalValue digitPrefix
  omega

/-! ## Facts about the environment readers -/

theorem osGetenv_unset {env : Env} {key : String} (h : Unset env key) : osGetenv env key = "" := by
  unfold osGetenv
  rcases h with h | h <;> simp [h]

theorem osGetenv_set {env : Env} {key v : String} (h : env key = some v) :
    osGetenv env key = v := by
  simp [osGetenv, h]

theorem getEnv_unset {env : Env} {key : String} (d : String) (h : Unset env key) :
    getEnv env key d = d := by
  simp [getEnv, osGetenv_unset h]

theorem getEnv_set {env : Env} {key v : String} (d : String) (h : env key = some v)
    (hv : v ≠ "") : getEnv env key d = v := by
  simp [getEnv, osGetenv_set h, hv]

theorem osGetenv_eq_empty_iff (env : Env) (key : String) :
    osGetenv env key = "" ↔ Unset env key := by
  constructor
  · intro h
    unfold osGetenv at h
    unfold Unset
    cases hk : env key with
    | none => exact Or.inl rfl
    | some v => rw [hk] at h; simp only at h; exact Or.inr (by rw [h])
  · exact osGetenv_unset

theorem Atoi_default_25 (sz : IntSize) : Atoi sz "25" = (25, none) := by
  cases sz <;> decide

theorem Atoi_default_0 (sz : IntSize) : Atoi sz "0" = (0, none) := by
  cases sz <;> decide

theorem Atoi_default_30 (sz : IntSize) : Atoi sz "30" = (30, none) := by
  cases sz <;> decide

theorem loadConfig_env (dotenv : Env → Env) (sz : IntSize) (env0 : Env) :
    (loadConfig dotenv sz env0).2 = dotenv env0 := rfl

theorem loadConfig_databaseURL (dotenv : Env → Env) (sz : IntSize) (env0 : Env) :
    (loadConfig dotenv sz env0).1.DatabaseURL = osGetenv (dotenv env0) "DATABASE_URL" := rfl

theorem main_fatal (dotenv : Env → Env) (sz : IntSize) (env0 : Env)
    (h : Unset (dotenv env0) "DATABASE_URL") :
    main dotenv sz env0 = [Effect.logFatal "DATABASE_URL is required"] := by
  simp [main, loadConfig, osGetenv_unset h]

theorem main_tls (dotenv : Env → Env) (sz : IntSize) (env0 : Env)
    (h : ¬ Unset (dotenv env0) "DATABASE_URL")
    (htls : osGetenv (dotenv env0) "TLS_CERT_FILE" ≠ "" ∧
      osGetenv (dotenv env0) "TLS_KEY_FILE" ≠ "") :
    main dotenv sz env0 =
      [Effect.logPrintf (startLine (loadConfig dotenv sz env0).1),
       Effect.listenAndServeTLS (serverOf (loadConfig dotenv sz env0).1)
         (osGetenv (dotenv env0) "TLS_CERT_FILE") (osGetenv (dotenv env0) "TLS_KEY_FILE")] := by
  have hne : osGetenv (dotenv env0) "DATABASE_URL" ≠ "" :=
    fun h0 => h ((osGetenv_eq_empty_iff _ _).1 h0)
  simp only [main, loadConfig, hne, if_false]
  rw [if_pos htls]
  rfl

theorem main_plain (dotenv : Env → Env) (sz : IntSize) (env0 : Env)
    (h : ¬ Unset (dotenv env0) "DATABASE_URL")
    (htls : ¬ (osGetenv (dotenv env0) "TLS_CERT_FILE" ≠ "" ∧
      osGetenv (dotenv env0) "TLS_KEY_FILE" ≠ "")) :
    main dotenv sz env0 =
      [Effect.logPrintf (startLine (loadConfig dotenv sz env0).1),
       Effect.listenAndServe (serverOf (loadConfig dotenv sz env0).1)] := by
  have hne : osGetenv (dotenv env0) "DATABASE_URL" ≠ "" :=
    fun h0 => h ((osGetenv_eq_empty_iff _ _).1 h0)
  simp only [main, loadConfig, hne, if_false]
  rw [if_neg htls]
  rfl

/-! ## C1: the only validation -/

/-- C1. When `DATABASE_URL` is unset or empty (in the environment left by the
override-file load) the bootstrap's whole trace is the fatal diagnostic
"DATABASE_URL is required", and it contains no listener start; when
`DATABASE_URL` is non-empty, whatever the other variables hold, the trace
contains no fatal diagnostic and ends in exactly one listener start. -/
theorem main_validates_databaseURL (dotenv : Env → Env) (sz : IntSize) (env0 : Env) :
    (Unset (dotenv env0) "DATABASE_URL" →
      main dotenv sz env0 = [Effect.logFatal "DATABASE_URL is required"] ∧
      ∀ e ∈ main dotenv sz env0, e.isListen = false) ∧
    (¬ Unset (dotenv env0) "DATABASE_URL" →
      (∀ e ∈ main dotenv sz env0, e.fatalMsg = none) ∧
      ∃ msg e, main dotenv sz env0 = [Effect.logPrintf msg, e] ∧ e.isListen = true) := by
  constructor
  · intro h
    rw [main_fatal dotenv sz env0 h]
    exact ⟨rfl, by simp [Effect.isListen]⟩
  · intro h
    by_cases htls : osGetenv (dotenv env0) "TLS_CERT_FILE" ≠ "" ∧
        osGetenv (dotenv env0) "TLS_KEY_FILE" ≠ ""
    · rw [main_tls dotenv sz env0 h htls]
      exact ⟨by simp [Effect.fatalMsg], _, _, rfl, rfl⟩
    · rw [main_plain dotenv sz env0 h htls]
      exact ⟨by simp [Effect.fatalMsg], _, _, rfl, rfl⟩

/-- Witness of C1: an empty environment is fatal, one with only
`DATABASE_URL` set starts a listener. -/
theorem main_validates_databaseURL_witness :
    (main id .bits64 (envOf []) = [Effect.logFatal "DATABASE_URL is required"] ∧
      ∀ e ∈ main id .bits64 (envOf []), e.isListen = false) ∧
    ((∀ e ∈ main id .bits64 (envOf [("DATABASE_URL", "postgres://db")]), e.fatalMsg = none) ∧
      ∃ msg e, main id .bits64 (envOf [("DATABASE_URL", "postgres://db")]) =
        [Effect.logPrintf msg, e] ∧ e.isListen = true) :=
  ⟨(main_validates_databaseURL id .bits64 (envOf [])).1 (by decide),
   (main_validates_databaseURL id .bits64 (envOf [("DATABASE_URL", "postgres://db")])).2
     (by decide)⟩

/-! ## C2: defaults and pass-through of string values -/

theorem thirtySeconds : wrapInt64 (wrapInt64 30 * timeSecond) = 30 * 1000000000 := by
  decide

/-- C2. For the environment left by the override-file load: each optional
variable that is unset or empty resolves to its documented default (port
"8080", host "0.0.0.0", environment "development", databaseDriver "postgres",
maxConnections 25, redisHost "localhost", redisPort "6379", redisPassword "",
redisDB 0, the five secrets "", enableMetrics true, enableTracing false,
readTimeout and writeTimeout 30 seconds = 30 * 10^9 ns), and each string
field whose variable is set to a non-empty value equals that value. -/
theorem loadConfig_defaults (dotenv : Env → Env) (sz : IntSize) (env0 : Env) :
    ((Unset (dotenv env0) "GO_SERVICE_PORT" → (loadConfig dotenv sz env0).1.Port = "8080") ∧
     (Unset (dotenv env0) "GO_SERVICE_HOST" → (loadConfig dotenv sz env0).1.Host = "0.0.0.0") ∧
     (Unset (dotenv env0) "GO_ENV" →
        (loadConfig dotenv sz env0).1.Environment = "development") ∧
     (Unset (dotenv env0) "DATABASE_DRIVER" →
        (loadConfig dotenv sz env0).1.DatabaseDriver = "postgres") ∧
     (Unset (dotenv env0) "MAX_DB_CONNECTIONS" →
        (loadConfig dotenv sz env0).1.MaxConnections = 25) ∧
     (Unset (dotenv env0) "REDIS_HOST" → (loadConfig dotenv sz env0).1.RedisHost = "localhost") ∧
     (Unset (dotenv env0) "REDIS_PORT" → (loadConfig dotenv sz env0).1.RedisPort = "6379") ∧
     (Unset (dotenv env0) "REDIS_PASSWORD" → (loadConfig dotenv sz env0).1.RedisPassword = "") ∧
     (Unset (dotenv env0) "REDIS_DB" → (loadConfig dotenv sz env0).1.RedisDB = 0) ∧
     (Unset (dotenv env0) "STRIPE_API_KEY" → (loadConfig dotenv sz env0).1.StripeAPIKey = "") ∧
     (Unset (dotenv env0) "TWILIO_ACCOUNT_SID" → (loadConfig dotenv sz env0).1.TwilioSID = "") ∧
     (Unset (dotenv env0) "TWILIO_AUTH_TOKEN" → (loadConfig dotenv sz env0).1.TwilioToken = "") ∧
     (Unset (dotenv env0) "DATADOG_API_KEY" → (loadConfig dotenv sz env0).1.DatadogAPIKey = "") ∧
     (Unset (dotenv env0) "DATADOG_APP_KEY" → (loadConfig dotenv sz env0).1.DatadogAppKey = "") ∧
     (Unset (dotenv env0) "ENABLE_METRICS" →
        (loadConfig dotenv sz env0).1.EnableMetrics = true) ∧
     (Unset (dotenv env0) "ENABLE_TRACING" →
        (loadConfig dotenv sz env0).1.EnableTracing = false) ∧
     (Unset (dotenv env0) "READ_TIMEOUT_SECONDS" →
        (loadConfig dotenv sz env0).1.ReadTimeout = 30 * 1000000000) ∧
     (Unset (dotenv env0) "WRITE_TIMEOUT_SECONDS" →
        (loadConfig dotenv sz env0).1.WriteTimeout = 30 * 1000000000)) ∧
    (∀ v : String, v ≠ "" →
     (dotenv env0 "GO_SERVICE_PORT" = some v → (loadConfig dotenv sz env0).1.Port = v) ∧
     (dotenv env0 "GO_SERVICE_HOST" = some v → (loadConfig dotenv sz env0).1.Host = v) ∧
     (dotenv env0 "GO_ENV" = some v → (loadConfig dotenv sz env0).1.Environment = v) ∧
     (dotenv env0 "DATABASE_URL" = some v → (loadConfig dotenv sz env0).1.DatabaseURL = v) ∧
     (dotenv env0 "DATABASE_DRIVER" = some v →
        (loadConfig dotenv sz env0).1.DatabaseDriver = v) ∧
     (dotenv env0 "REDIS_HOST" = some v → (loadConfig dotenv sz env0).1.RedisHost = v) ∧
     (dotenv env0 "REDIS_PORT" = some v → (loadConfig dotenv sz env0).1.RedisPort = v) ∧
     (dotenv env0 "REDIS_PASSWORD" = some v →
        (loadConfig dotenv sz env0).1.RedisPassword = v) ∧
     (dotenv env0 "STRIPE_API_KEY" = some v → (loadConfig dotenv sz env0).1.StripeAPIKey = v) ∧
     (dotenv env0 "TWILIO_ACCOUNT_SID" = some v → (loadConfig dotenv sz env0).1.TwilioSID = v) ∧
     (dotenv env0 "TWILIO_AUTH_TOKEN" = some v → (loadConfig dotenv sz env0).1.TwilioToken = v) ∧
     (dotenv env0 "DATADOG_API_KEY" = some v →
        (loadConfig dotenv sz env0).1.DatadogAPIKey = v) ∧
     (dotenv env0 "DATADOG_APP_KEY" = some v →
        (loadConfig dotenv sz env0).1.DatadogAppKey = v)) := by
  refine ⟨⟨?_, ?_, ?_, ?_, ?_, ?_, ?_, ?_, ?_, ?_, ?_, ?_, ?_, ?_, ?_, ?_, ?_, ?_⟩, ?_⟩
  · intro h; simp only [loadConfig, getEnv_unset _ h]
  · intro h; simp only [loadConfig, getEnv_unset _ h]
  · intro h; simp only [loadConfig, getEnv_unset _ h]
  · intro h; simp only [loadConfig, getEnv_unset _ h]
  · intro h; simp only [loadConfig, getEnv_unset _ h, Atoi_default_25]
  · intro h; simp only [loadConfig, getEnv_unset _ h]
  · intro h; simp only [loadConfig, getEnv_unset _ h]
  · intro h; simp only [loadConfig, osGetenv_unset h]
  · intro h; simp only [loadConfig, getEnv_unset _ h, Atoi_default_0]
  · intro h; simp only [loadConfig, osGetenv_unset h]
  · intro h; simp only [loadConfig, osGetenv_unset h]
  · intro h; simp only [loadConfig, osGetenv_unset h]
  · intro h; simp only [loadConfig, osGetenv_unset h]
  · intro h; simp only [loadConfig, osGetenv_unset h]
  · intro h; simp only [loadConfig, getEnv_unset _ h, decide_True]
  · intro h; simp only [loadConfig, getEnv_unset _ h]; decide
  · intro h; simp only [loadConfig, getEnv_unset _ h, Atoi_default_30, thirtySeconds]
  · intro h; simp only [loadConfig, getEnv_unset _ h, Atoi_default_30, thirtySeconds]
  · intro v hv
    refine ⟨?_, ?_, ?_, ?_, ?_, ?_, ?_, ?_, ?_, ?_, ?_, ?_, ?_⟩
    · intro h; simp only [loadConfig, getEnv_set _ h hv]
    · intro h; simp only [loadConfig, getEnv_set _ h hv]
    · intro h; simp only [loadConfig, getEnv_set _ h hv]
    · intro h; simp only [loadConfig, osGetenv_set h]
    · intro h; simp only [loadConfig, getEnv_set _ h hv]
    · intro h; simp only [loadConfig, getEnv_set _ h hv]
    · intro h; simp only [loadConfig, getEnv_set _ h hv]
    · intro h; simp only [loadConfig, osGetenv_set h]
    · intro h; simp only [loadConfig, osGetenv_set h]
    · intro h; simp only [loadConfig, osGetenv_set h]
    · intro h; simp only [loadConfig, osGetenv_set h]
    · intro h; simp only [loadConfig, osGetenv_set h]
    · intro h; simp only [loadConfig, osGetenv_set h]

/-- Witness of C2: with nothing set every default is taken; with
`GO_SERVICE_PORT=9090` the port is "9090". -/
theorem loadConfig_defaults_witness :
    (loadConfig id .bits64 (envOf [])).1.Port = "8080" ∧
    (loadConfig id .bits64 (envOf [])).1.MaxConnections = 25 ∧
    (loadConfig id .bits64 (envOf [])).1.ReadTimeout = 30 * 1000000000 ∧
    (loadConfig id .bits64 (envOf [("GO_SERVICE_PORT", "9090")])).1.Port = "9090" :=
  ⟨(loadConfig_defaults id .bits64 (envOf [])).1.1 (by decide),
   (loadConfig_defaults id .bits64 (envOf [])).1.2.2.2.2.1 (by decide),
   (loadConfig_defaults id .bits64 (envOf [])).1.2.2.2.2.2.2.2.2.2.2.2.2.2.2.2.2.1 (by decide),
   ((loadConfig_defaults id .bits64 (envOf [("GO_SERVICE_PORT", "9090")])).2 "9090"
     (by decide)).1 (by decide)⟩

/-! ## C3: the health handler -/

/-- C3. The health handler sets `Content-Type: application/json` and writes
exactly the JSON text with the raw value of `GO_ENV` (empty when unset, not
the resolved default "development") and the value of `APP_VERSION`, or
"1.0.0" when `APP_VERSION` is unset or empty. In particular
`GO_ENV=staging, APP_VERSION=2.3.1` and the empty environment give the two
bodies of the specification. -/
theorem healthHandler_body :
    (∀ (env : Env) (e v : String),
      (env "GO_ENV" = some e ∨ (env "GO_ENV" = none ∧ e = "")) →
      ((env "APP_VERSION" = some v ∧ v ≠ "") ∨ (Unset env "APP_VERSION" ∧ v = "1.0.0")) →
      (healthHandler env).header = [("Content-Type", "application/json")] ∧
      (healthHandler env).body =
        "\x7b\"status\":\"ok\",\"environment\":\"" ++ e ++ "\",\"version\":\"" ++ v ++
          "\"\x7d") ∧
    (healthHandler (envOf [("GO_ENV", "staging"), ("APP_VERSION", "2.3.1")])).body =
      "\x7b\"status\":\"ok\",\"environment\":\"staging\",\"version\":\"2.3.1\"\x7d" ∧
    (healthHandler (envOf [])).body =
      "\x7b\"status\":\"ok\",\"environment\":\"\",\"version\":\"1.0.0\"\x7d" := by
  refine ⟨?_, by decide, by decide⟩
  intro env e v he hv
  have h1 : osGetenv env "GO_ENV" = e := by
    rcases he with h | ⟨h, rfl⟩ <;> simp [osGetenv, h]
  have h2 : getEnv env "APP_VERSION" "1.0.0" = v := by
    rcases hv with ⟨h, hne⟩ | ⟨h, rfl⟩
    · exact getEnv_set _ h hne
    · exact getEnv_unset _ h
  simp only [healthHandler, h1, h2, and_self]

/-- Witness of C3: the general statement at `GO_ENV=staging, APP_VERSION=2.3.1`. -/
theorem healthHandler_body_witness :
    (healthHandler (envOf [("GO_ENV", "staging"), ("APP_VERSION", "2.3.1")])).header =
        [("Content-Type", "application/json")] ∧
      (healthHandler (envOf [("GO_ENV", "staging"), ("APP_VERSION", "2.3.1")])).body =
        "\x7b\"status\":\"ok\",\"environment\":\"" ++ "staging" ++ "\",\"version\":\"" ++
          "2.3.1" ++ "\"\x7d" :=
  healthHandler_body.1 (envOf [("GO_ENV", "staging"), ("APP_VERSION", "2.3.1")]) "staging"
    "2.3.1" (Or.inl (by decide)) (Or.inl (by decide))

/-! ## C4: boolean resolution of ENABLE_METRICS -/

/-- C4 fails as stated: `ENABLE_METRICS` set to the empty string, a value
other than "true", resolves to `true`. -/
theorem enableMetrics_empty_is_true :
    envOf [("ENABLE_METRICS", "")] "ENABLE_METRICS" = some "" ∧
    ("" : String) ≠ "true" ∧
    (loadConfig id .bits64 (envOf [("ENABLE_METRICS", "")])).1.EnableMetrics = true := by
  decide

/-- C4 amended. `ENABLE_METRICS` unset, empty or "true" resolves to `true`;
every non-empty value other than exactly "true" resolves to `false`. -/
theorem enableMetrics_resolution (dotenv : Env → Env) (sz : IntSize) (env0 : Env) :
    (Unset (dotenv env0) "ENABLE_METRICS" →
      (loadConfig dotenv sz env0).1.EnableMetrics = true) ∧
    (dotenv env0 "ENABLE_METRICS" = some "true" →
      (loadConfig dotenv sz env0).1.EnableMetrics = true) ∧
    (∀ v : String, dotenv env0 "ENABLE_METRICS" = some v → v ≠ "" → v ≠ "true" →
      (loadConfig dotenv sz env0).1.EnableMetrics = false) := by
  refine ⟨?_, ?_, ?_⟩
  · intro h; simp only [loadConfig, getEnv_unset _ h, decide_True]
  · intro h; simp only [loadConfig, getEnv_set _ h (by decide), decide_True]
  · intro v h hne ht
    simp only [loadConfig, getEnv_set _ h hne, ht, decide_False]

/-- Witness of C4 amended: unset, "true", and the values "TRUE", "1", "yes", " true". -/
theorem enableMetrics_resolution_witness :
    (loadConfig id .bits64 (envOf [])).1.EnableMetrics = true ∧
    (loadConfig id .bits64 (envOf [("ENABLE_METRICS", "true")])).1.EnableMetrics = true ∧
    (loadConfig id .bits64 (envOf [("ENABLE_METRICS", "TRUE")])).1.EnableMetrics = false ∧
    (loadConfig id .bits64 (envOf [("ENABLE_METRICS", "1")])).1.EnableMetrics = false ∧
    (loadConfig id .bits64 (envOf [("ENABLE_METRICS", "yes")])).1.EnableMetrics = false ∧
    (loadConfig id .bits64 (envOf [("ENABLE_METRICS", " true")])).1.EnableMetrics = false :=
  ⟨(enableMetrics_resolution id .bits64 (envOf [])).1 (by decide),
   (enableMetrics_resolution id .bits64 (envOf [("ENABLE_METRICS", "true")])).2.1 (by decide),
   (enableMetrics_resolution id .bits64 (envOf [("ENABLE_METRICS", "TRUE")])).2.2 "TRUE"
     (by decide) (by decide) (by decide),
   (enableMetrics_resolution id .bits64 (envOf [("ENABLE_METRICS", "1")])).2.2 "1"
     (by decide) (by decide) (by decide),
   (enableMetrics_resolution id .bits64 (envOf [("ENABLE_METRICS", "yes")])).2.2 "yes"
     (by decide) (by decide) (by decide),
   (enableMetrics_resolution id .bits64 (envOf [("ENABLE_METRICS", " true")])).2.2 " true"
     (by decide) (by decide) (by decide)⟩

/-! ## C6, C7: the listener -/

/-- C6. With a non-empty `DATABASE_URL` the bootstrap starts the TLS listener,
with the values of `TLS_CERT_FILE` and `TLS_KEY_FILE`, exactly when both are
non-empty; otherwise it starts the plain-text listener. -/
theorem main_tls_branch (dotenv : Env → Env) (sz : IntSize) (env0 : Env)
    (hdb : ¬ Unset (dotenv env0) "DATABASE_URL") :
    ((osGetenv (dotenv env0) "TLS_CERT_FILE" ≠ "" ∧ osGetenv (dotenv env0) "TLS_KEY_FILE" ≠ "") →
      ∃ msg srv, main dotenv sz env0 =
        [Effect.logPrintf msg,
         Effect.listenAndServeTLS srv (osGetenv (dotenv env0) "TLS_CERT_FILE")
           (osGetenv (dotenv env0) "TLS_KEY_FILE")]) ∧
    (¬ (osGetenv (dotenv env0) "TLS_CERT_FILE" ≠ "" ∧
        osGetenv (dotenv env0) "TLS_KEY_FILE" ≠ "") →
      ∃ msg srv, main dotenv sz env0 = [Effect.logPrintf msg, Effect.listenAndServe srv]) ∧
    ((∃ e ∈ main dotenv sz env0, e.tlsFiles ≠ none) ↔
      (osGetenv (dotenv env0) "TLS_CERT_FILE" ≠ "" ∧
        osGetenv (dotenv env0) "TLS_KEY_FILE" ≠ "")) ∧
    ((∃ e ∈ main dotenv sz env0, e.plainServer.isSome = true) ↔
      ¬ (osGetenv (dotenv env0) "TLS_CERT_FILE" ≠ "" ∧
        osGetenv (dotenv env0) "TLS_KEY_FILE" ≠ "")) := by
  by_cases htls : osGetenv (dotenv env0) "TLS_CERT_FILE" ≠ "" ∧
      osGetenv (dotenv env0) "TLS_KEY_FILE" ≠ ""
  · rw [main_tls dotenv sz env0 hdb htls]
    refine ⟨fun _ => ⟨_, _, rfl⟩, fun h => absurd htls h, ?_, ?_⟩
    · simp [Effect.tlsFiles, htls]
    · simp [Effect.plainServer, htls]
  · rw [main_plain dotenv sz env0 hdb htls]
    refine ⟨fun h => absurd h htls, fun _ => ⟨_, _, rfl⟩, ?_, ?_⟩
    · simp only [List.mem_cons, List.mem_singleton, List.not_mem_nil, or_false]
      constructor
      · rintro ⟨e, rfl | rfl, he⟩ <;> simp [Effect.tlsFiles] at he
      · intro h; exact absurd h htls
    · simp only [htls, not_false_eq_true, iff_true]
      exact ⟨Effect.listenAndServe (serverOf (loadConfig dotenv sz env0).1), by simp, rfl⟩

/-- Witness of C6: both files set starts TLS with those files. -/
theorem main_tls_branch_witness :
    ∃ msg srv, main id .bits64
        (envOf [("DATABASE_URL", "postgres://db"), ("TLS_CERT_FILE", "c.pem"),
          ("TLS_KEY_FILE", "k.pem")]) =
      [Effect.logPrintf msg, Effect.listenAndServeTLS srv "c.pem" "k.pem"] :=
  (main_tls_branch id .bits64
    (envOf [("DATABASE_URL", "postgres://db"), ("TLS_CERT_FILE", "c.pem"),
      ("TLS_KEY_FILE", "k.pem")]) (by decide)).1 (by decide)

/-- C7. With a non-empty `DATABASE_URL` and no TLS path set the bootstrap
starts a plain-text listener whose address is the resolved host, a colon and
the resolved port ("0.0.0.0:8080" when both variables are unset) and whose
read and write timeouts are the resolved ones. -/
theorem main_plain_listener (dotenv : Env → Env) (sz : IntSize) (env0 : Env)
    (hdb : ¬ Unset (dotenv env0) "DATABASE_URL")
    (hcert : Unset (dotenv env0) "TLS_CERT_FILE") (hkey : Unset (dotenv env0) "TLS_KEY_FILE") :
    ∃ msg srv, main dotenv sz env0 = [Effect.logPrintf msg, Effect.listenAndServe srv] ∧
      srv.Addr = (loadConfig dotenv sz env0).1.Host ++ ":" ++ (loadConfig dotenv sz env0).1.Port ∧
      srv.ReadTimeout = (loadConfig dotenv sz env0).1.ReadTimeout ∧
      srv.WriteTimeout = (loadConfig dotenv sz env0).1.WriteTimeout ∧
      (Unset (dotenv env0) "GO_SERVICE_HOST" → Unset (dotenv env0) "GO_SERVICE_PORT" →
        srv.Addr = "0.0.0.0:8080") := by
  have htls : ¬ (osGetenv (dotenv env0) "TLS_CERT_FILE" ≠ "" ∧
      osGetenv (dotenv env0) "TLS_KEY_FILE" ≠ "") := by
    rw [osGetenv_unset hcert, osGetenv_unset hkey]; simp
  refine ⟨_, _, main_plain dotenv sz env0 hdb htls, rfl, rfl, rfl, ?_⟩
  intro hh hp
  simp only [serverOf, loadConfig, getEnv_unset _ hh, getEnv_unset _ hp]
  decide

/-- Witness of C7: only `DATABASE_URL` set gives a plain-text listener on
"0.0.0.0:8080". -/
theorem main_plain_listener_witness :
    ∃ msg srv, main id .bits64 (envOf [("DATABASE_URL", "postgres://db")]) =
        [Effect.logPrintf msg, Effect.listenAndServe srv] ∧ srv.Addr = "0.0.0.0:8080" :=
  match main_plain_listener id .bits64 (envOf [("DATABASE_URL", "postgres://db")])
      (by decide) (by decide) (by decide) with
  | ⟨msg, srv, h1, _, _, _, h5⟩ => ⟨msg, srv, h1, h5 (by decide) (by decide)⟩

/-! ## C5, C8, C9, C10: integer and duration fields -/

theorem zeroSeconds : wrapInt64 (wrapInt64 0 * timeSecond) = 0 := by decide

theorem Atoi_int64_range (sz : IntSize) (v : String) :
    -9223372036854775808 ≤ (Atoi sz v).1 ∧ (Atoi sz v).1 < 9223372036854775808 := by
  have h := (Atoi_facts sz v).1.2.2.1
  cases sz <;> simp only [IntSize.bits] at h <;> norm_num at h <;> constructor <;> omega

/-- C5 fails as stated: the non-numeric value "99999999999999999999x" makes
`Atoi` stop at the overflowing twentieth digit with a range error, before the
`x` is read, and the discarded error leaves the clamped value: maxConnections
and redisDB are `2^63 - 1` and the timeouts are `-10^9` ns (64-bit `int`). -/
theorem nonNumeric_overflow_not_zero :
    isNumeric "99999999999999999999x" = false ∧
    (loadConfig id .bits64
      (envOf [("MAX_DB_CONNECTIONS", "99999999999999999999x")])).1.MaxConnections
        = 9223372036854775807 ∧
    (loadConfig id .bits64
      (envOf [("REDIS_DB", "99999999999999999999x")])).1.RedisDB = 9223372036854775807 ∧
    (loadConfig id .bits64
      (envOf [("READ_TIMEOUT_SECONDS", "99999999999999999999x")])).1.ReadTimeout
        = -1000000000 ∧
    (loadConfig id .bits64
      (envOf [("WRITE_TIMEOUT_SECONDS", "99999999999999999999x")])).1.WriteTimeout
        = -1000000000 := by
  decide

/-- C5 amended. For a non-empty non-numeric value `v` of `MAX_DB_CONNECTIONS`,
`REDIS_DB`, `READ_TIMEOUT_SECONDS` or `WRITE_TIMEOUT_SECONDS`: when the digits
before the first non-digit character (after an optional sign) write a number
of at most `2^bits - 1`, `Atoi` reports a syntax error and the field is zero,
not the documented default; when they write a larger number, `Atoi` reports
a range error and the field is the integer of largest magnitude with the sign
of `v` (for a timeout: that many seconds in wrapping 64-bit nanoseconds). The
first case always applies when `v` is shorter than 19 bytes (10 bytes for a
32-bit `int`). -/
theorem nonNumeric_resolves_zero (dotenv : Env → Env) (sz : IntSize) (env0 : Env) (v : String)
    (hne : v ≠ "") (hnum : isNumeric v = false) :
    (decimalValue (digitPrefix v) ≤ 2 ^ sz.bits - 1 →
      Atoi sz v = (0, some .errSyntax) ∧
      (dotenv env0 "MAX_DB_CONNECTIONS" = some v →
        (loadConfig dotenv sz env0).1.MaxConnections = 0) ∧
      (dotenv env0 "REDIS_DB" = some v → (loadConfig dotenv sz env0).1.RedisDB = 0) ∧
      (dotenv env0 "READ_TIMEOUT_SECONDS" = some v →
        (loadConfig dotenv sz env0).1.ReadTimeout = 0) ∧
      (dotenv env0 "WRITE_TIMEOUT_SECONDS" = some v →
        (loadConfig dotenv sz env0).1.WriteTimeout = 0)) ∧
    (decimalValue (digitPrefix v) > 2 ^ sz.bits - 1 →
      Atoi sz v = (clampOf sz v, some .errRange) ∧
      (dotenv env0 "MAX_DB_CONNECTIONS" = some v →
        (loadConfig dotenv sz env0).1.MaxConnections = clampOf sz v) ∧
      (dotenv env0 "REDIS_DB" = some v → (loadConfig dotenv sz env0).1.RedisDB = clampOf sz v) ∧
      (dotenv env0 "READ_TIMEOUT_SECONDS" = some v →
        (loadConfig dotenv sz env0).1.ReadTimeout = wrapInt64 (clampOf sz v * 1000000000)) ∧
      (dotenv env0 "WRITE_TIMEOUT_SECONDS" = some v →
        (loadConfig dotenv sz env0).1.WriteTimeout = wrapInt64 (clampOf sz v * 1000000000))) ∧
    (v.utf8ByteSize < fastLimit sz → decimalValue (digitPrefix v) ≤ 2 ^ sz.bits - 1) := by
  have hbool : ¬ (isNumeric v = true) := by rw [hnum]; decide
  refine ⟨?_, ?_, short_prefix_fits sz v hne⟩
  · intro hle
    rcases Atoi_cases sz v with ⟨h, _⟩ | ⟨h, _⟩ | ⟨_, _, hA⟩ | ⟨_, hgt, _⟩
    · exact absurd h hbool
    · exact absurd h hbool
    · refine ⟨hA, ?_, ?_, ?_, ?_⟩
      · intro h; simp only [loadConfig, getEnv_set _ h hne, hA]
      · intro h; simp only [loadConfig, getEnv_set _ h hne, hA]
      · intro h; simp only [loadConfig, getEnv_set _ h hne, hA, zeroSeconds]
      · intro h; simp only [loadConfig, getEnv_set _ h hne, hA, zeroSeconds]
    · omega
  · intro hgt
    rcases Atoi_cases sz v with ⟨h, _⟩ | ⟨h, _⟩ | ⟨_, hle, _⟩ | ⟨_, _, hA⟩
    · exact absurd h hbool
    · exact absurd h hbool
    · omega
    · have hr := Atoi_int64_range sz v
      rw [hA] at hr
      have hw : wrapInt64 (clampOf sz v) = clampOf sz v := wrapInt64_of_range _ hr
      refine ⟨hA, ?_, ?_, ?_, ?_⟩
      · intro h; simp only [loadConfig, getEnv_set _ h hne, hA]
      · intro h; simp only [loadConfig, getEnv_set _ h hne, hA]
      · intro h; simp only [loadConfig, getEnv_set _ h hne, hA, hw, timeSecond]
      · intro h; simp only [loadConfig, getEnv_set _ h hne, hA, hw, timeSecond]

/-- Witness of C5 amended: the values "abc", "12x", "1.5", " 7", the 20-byte
value "9999999999999999999x" (zero), and "99999999999999999999x" (clamped). -/
theorem nonNumeric_resolves_zero_witness :
    (loadConfig id .bits64 (envOf [("MAX_DB_CONNECTIONS", "abc")])).1.MaxConnections = 0 ∧
    (loadConfig id .bits64 (envOf [("REDIS_DB", "12x")])).1.RedisDB = 0 ∧
    (loadConfig id .bits64 (envOf [("READ_TIMEOUT_SECONDS", "1.5")])).1.ReadTimeout = 0 ∧
    (loadConfig id .bits32 (envOf [("WRITE_TIMEOUT_SECONDS", " 7")])).1.WriteTimeout = 0 ∧
    (loadConfig id .bits64
      (envOf [("MAX_DB_CONNECTIONS", "9999999999999999999x")])).1.MaxConnections = 0 ∧
    (loadConfig id .bits64
      (envOf [("MAX_DB_CONNECTIONS", "99999999999999999999x")])).1.MaxConnections =
        clampOf .bits64 "99999999999999999999x" :=
  ⟨((nonNumeric_resolves_zero id .bits64 (envOf [("MAX_DB_CONNECTIONS", "abc")]) "abc"
      (by decide) (by decide)).1 (by decide)).2.1 (by decide),
   ((nonNumeric_resolves_zero id .bits64 (envOf [("REDIS_DB", "12x")]) "12x"
      (by decide) (by decide)).1 (by decide)).2.2.1 (by decide),
   ((nonNumeric_resolves_zero id .bits64 (envOf [("READ_TIMEOUT_SECONDS", "1.5")]) "1.5"
      (by decide) (by decide)).1 (by decide)).2.2.2.1 (by decide),
   ((nonNumeric_resolves_zero id .bits32 (envOf [("WRITE_TIMEOUT_SECONDS", " 7")]) " 7"
      (by decide) (by decide)).1 (by decide)).2.2.2.2 (by decide),
   ((nonNumeric_resolves_zero id .bits64
      (envOf [("MAX_DB_CONNECTIONS", "9999999999999999999x")]) "9999999999999999999x"
      (by decide) (by decide)).1 (by decide)).2.1 (by decide),
   ((nonNumeric_resolves_zero id .bits64
      (envOf [("MAX_DB_CONNECTIONS", "99999999999999999999x")]) "99999999999999999999x"
      (by decide) (by decide)).2.1 (by decide)).2.1 (by decide)⟩

/-- C8 fails as stated: `MAX_DB_CONNECTIONS=-5` resolves maxConnections to `-5`. -/
theorem maxConnections_negative :
    (loadConfig id .bits64 (envOf [("MAX_DB_CONNECTIONS", "-5")])).1.MaxConnections = -5 ∧
    ¬ (0 ≤ (loadConfig id .bits64 (envOf [("MAX_DB_CONNECTIONS", "-5")])).1.MaxConnections) := by
  decide

/-- C8 amended. maxConnections always lies in the range of `int`, and it is
greater than or equal to zero whenever `MAX_DB_CONNECTIONS` is unset, empty or
set to a value that does not begin with a minus sign. -/
theorem maxConnections_nonneg (dotenv : Env → Env) (sz : IntSize) (env0 : Env) :
    (-2 ^ (sz.bits - 1) ≤ (loadConfig dotenv sz env0).1.MaxConnections ∧
      (loadConfig dotenv sz env0).1.MaxConnections < 2 ^ (sz.bits - 1)) ∧
    ((Unset (dotenv env0) "MAX_DB_CONNECTIONS" ∨
        ∃ v : String, dotenv env0 "MAX_DB_CONNECTIONS" = some v ∧ v.data.head? ≠ some '-') →
      0 ≤ (loadConfig dotenv sz env0).1.MaxConnections) := by
  refine ⟨(Atoi_facts sz _).1.2.2.1, ?_⟩
  rintro (h | ⟨v, hv, hhead⟩)
  · simp only [loadConfig, getEnv_unset _ h, Atoi_default_25]; decide
  · by_cases hne : v = ""
    · have hu : Unset (dotenv env0) "MAX_DB_CONNECTIONS" := Or.inr (by rw [hv, hne])
      simp only [loadConfig, getEnv_unset _ hu, Atoi_default_25]; decide
    · simp only [loadConfig, getEnv_set _ hv hne]
      exact (Atoi_facts sz v).1.2.2.2.1 hhead

/-- Witness of C8 amended: `MAX_DB_CONNECTIONS=40`. -/
theorem maxConnections_nonneg_witness :
    0 ≤ (loadConfig id .bits64 (envOf [("MAX_DB_CONNECTIONS", "40")])).1.MaxConnections :=
  (maxConnections_nonneg id .bits64 (envOf [("MAX_DB_CONNECTIONS", "40")])).2
    (Or.inr ⟨"40", by decide, by decide⟩)

/-- C9 fails as stated: for "99999999999999999999" `Atoi` returns a range
error together with `2^63 - 1` (64-bit `int`), and the field keeps that value,
not zero. -/
theorem outOfRange_not_zero :
    Atoi .bits64 "99999999999999999999" = (9223372036854775807, some .errRange) ∧
    (loadConfig id .bits64
      (envOf [("MAX_DB_CONNECTIONS", "99999999999999999999")])).1.MaxConnections
        = 9223372036854775807 ∧
    (loadConfig id .bits64
      (envOf [("REDIS_DB", "99999999999999999999")])).1.RedisDB = 9223372036854775807 ∧
    (loadConfig id .bits32
      (envOf [("MAX_DB_CONNECTIONS", "99999999999999999999")])).1.MaxConnections
        = 2147483647 := by
  decide

/-- C9 amended. For a non-empty value `v` of `MAX_DB_CONNECTIONS` / `REDIS_DB`
the field is the value `Atoi` returns. The parse succeeds exactly when `v` is
an optional sign followed by digits whose signed value lies in the range of
`int`, and the field is then that value; on a syntax error the field is zero;
on a range error, which every well-formed digit string out of the range gives,
the field is the integer of largest magnitude with the sign of `v`:
`-2^(bits-1)` after a minus sign, else `2^(bits-1) - 1`. -/
theorem intField_resolution (dotenv : Env → Env) (sz : IntSize) (env0 : Env) (v : String)
    (field : Int) (hne : v ≠ "")
    (hfield : (dotenv env0 "MAX_DB_CONNECTIONS" = some v ∧
        field = (loadConfig dotenv sz env0).1.MaxConnections) ∨
      (dotenv env0 "REDIS_DB" = some v ∧ field = (loadConfig dotenv sz env0).1.RedisDB)) :
    field = (Atoi sz v).1 ∧
    ((Atoi sz v).2 = none ↔
      (isNumeric v = true ∧
        -2 ^ (sz.bits - 1) ≤ signedValue v ∧ signedValue v < 2 ^ (sz.bits - 1))) ∧
    ((Atoi sz v).2 = none → field = signedValue v) ∧
    ((Atoi sz v).2 = some .errSyntax → field = 0) ∧
    ((Atoi sz v).2 = some .errRange →
      field = (if isNegative v = true then -2 ^ (sz.bits - 1) else 2 ^ (sz.bits - 1) - 1)) ∧
    ((isNumeric v = true ∧
        ¬ (-2 ^ (sz.bits - 1) ≤ signedValue v ∧ signedValue v < 2 ^ (sz.bits - 1))) →
      (Atoi sz v).2 = some .errRange) := by
  have hf : field = (Atoi sz v).1 := by
    rcases hfield with ⟨h, rfl⟩ | ⟨h, rfl⟩
    · simp only [loadConfig, getEnv_set _ h hne]
    · simp only [loadConfig, getEnv_set _ h hne]
  refine ⟨hf, ?_⟩
  rw [hf]
  have hclamp : clampOf sz v =
      (if isNegative v = true then -2 ^ (sz.bits - 1) else 2 ^ (sz.bits - 1) - 1) := rfl
  rcases Atoi_cases sz v with ⟨hn, hr, hA⟩ | ⟨hn, hr, hA⟩ | ⟨hn, _, hA⟩ | ⟨hn, _, hA⟩
  · rw [hA]
    refine ⟨⟨fun _ => ⟨hn, hr⟩, fun _ => rfl⟩, fun _ => rfl, ?_, ?_, ?_⟩
    · intro h; exact absurd h (by simp)
    · intro h; exact absurd h (by simp)
    · intro h; exact absurd hr h.2
  · rw [hA]
    refine ⟨⟨fun h => absurd h (by simp), fun h => absurd ⟨h.2.1, h.2.2⟩ hr⟩, ?_, ?_, ?_, ?_⟩
    · intro h; exact absurd h (by simp)
    · intro h; exact absurd h (by simp)
    · intro _; exact hclamp
    · intro _; rfl
  · rw [hA]
    have hb : ¬ (isNumeric v = true) := by rw [hn]; decide
    refine ⟨⟨fun h => absurd h (by simp), fun h => absurd h.1 hb⟩, ?_, ?_, ?_, ?_⟩
    · intro h; exact absurd h (by simp)
    · intro _; rfl
    · intro h; exact absurd h (by simp)
    · intro h; exact absurd h.1 hb
  · rw [hA]
    have hb : ¬ (isNumeric v = true) := by rw [hn]; decide
    refine ⟨⟨fun h => absurd h (by simp), fun h => absurd h.1 hb⟩, ?_, ?_, ?_, ?_⟩
    · intro h; exact absurd h (by simp)
    · intro h; exact absurd h (by simp)
    · intro _; exact hclamp
    · intro h; exact absurd h.1 hb

/-- Witness of C9 amended: `MAX_DB_CONNECTIONS=42` gives 42, `REDIS_DB=7x` gives 0,
and `REDIS_DB=-99999999999999999999` gives `-2^63` (64-bit `int`). -/
theorem intField_resolution_witness :
    (loadConfig id .bits64 (envOf [("MAX_DB_CONNECTIONS", "42")])).1.MaxConnections = 42 ∧
    (loadConfig id .bits64 (envOf [("REDIS_DB", "7x")])).1.RedisDB = 0 ∧
    (loadConfig id .bits64 (envOf [("REDIS_DB", "-99999999999999999999")])).1.RedisDB =
      -9223372036854775808 :=
  ⟨((intField_resolution id .bits64 (envOf [("MAX_DB_CONNECTIONS", "42")]) "42" _
      (by decide) (Or.inl ⟨by decide, rfl⟩)).2.2.1 (by decide)).trans (by decide),
   (intField_resolution id .bits64 (envOf [("REDIS_DB", "7x")]) "7x" _
      (by decide) (Or.inr ⟨by decide, rfl⟩)).2.2.2.1 (by decide),
   ((intField_resolution id .bits64 (envOf [("REDIS_DB", "-99999999999999999999")])
      "-99999999999999999999" _
      (by decide) (Or.inr ⟨by decide, rfl⟩)).2.2.2.2.1 (by decide)).trans (by decide)⟩

/-- C10 fails as stated: `READ_TIMEOUT_SECONDS=9223372037` parses as
`n = 9223372037` (64-bit `int`), but `n * 10^9` exceeds the signed 64-bit range
and the duration wraps to `-9223372036709551616` ns. -/
theorem duration_overflow :
    Atoi .bits64 "9223372037" = (9223372037, none) ∧
    (loadConfig id .bits64 (envOf [("READ_TIMEOUT_SECONDS", "9223372037")])).1.ReadTimeout
      = -9223372036709551616 ∧
    (loadConfig id .bits64 (envOf [("READ_TIMEOUT_SECONDS", "9223372037")])).1.ReadTimeout
      ≠ 9223372037 * 1000000000 ∧
    (loadConfig id .bits64 (envOf [("WRITE_TIMEOUT_SECONDS", "9223372037")])).1.WriteTimeout
      ≠ 9223372037 * 1000000000 := by
  decide

/-- C10 amended. When `READ_TIMEOUT_SECONDS` (resp. `WRITE_TIMEOUT_SECONDS`) is
a non-empty value that parses as `n`, readTimeout (resp. writeTimeout) is
`n * 10^9` ns reduced into the signed 64-bit range; it is exactly `n` seconds
whenever `-9223372036 ≤ n ≤ 9223372036`, which always holds for a 32-bit `int`. -/
theorem duration_resolution (dotenv : Env → Env) (sz : IntSize) (env0 : Env) (v : String)
    (n : Int) (hne : v ≠ "") (hparse : Atoi sz v = (n, none)) :
    (dotenv env0 "READ_TIMEOUT_SECONDS" = some v →
      (loadConfig dotenv sz env0).1.ReadTimeout = wrapInt64 (n * 1000000000) ∧
      (-9223372036 ≤ n ∧ n ≤ 9223372036 →
        (loadConfig dotenv sz env0).1.ReadTimeout = n * 1000000000)) ∧
    (dotenv env0 "WRITE_TIMEOUT_SECONDS" = some v →
      (loadConfig dotenv sz env0).1.WriteTimeout = wrapInt64 (n * 1000000000) ∧
      (-9223372036 ≤ n ∧ n ≤ 9223372036 →
        (loadConfig dotenv sz env0).1.WriteTimeout = n * 1000000000)) ∧
    (sz = .bits32 → -9223372036 ≤ n ∧ n ≤ 9223372036) := by
  have hr := Atoi_int64_range sz v
  have hr2 := (Atoi_facts sz v).1.2.2.1
  rw [hparse] at hr hr2
  simp only at hr hr2
  have hw : wrapInt64 n = n := wrapInt64_of_range n hr
  have hexact : -9223372036 ≤ n ∧ n ≤ 9223372036 →
      wrapInt64 (n * 1000000000) = n * 1000000000 := by
    intro hb
    apply wrapInt64_of_range
    constructor <;> omega
  refine ⟨?_, ?_, ?_⟩
  · intro h
    have he : (loadConfig dotenv sz env0).1.ReadTimeout = wrapInt64 (n * 1000000000) := by
      simp only [loadConfig, getEnv_set _ h hne, hparse, hw, timeSecond]
    exact ⟨he, fun hb => by rw [he, hexact hb]⟩
  · intro h
    have he : (loadConfig dotenv sz env0).1.WriteTimeout = wrapInt64 (n * 1000000000) := by
      simp only [loadConfig, getEnv_set _ h hne, hparse, hw, timeSecond]
    exact ⟨he, fun hb => by rw [he, hexact hb]⟩
  · intro hsz
    subst hsz
    simp only [IntSize.bits] at hr2
    norm_num at hr2
    constructor <;> omega

/-- Witness of C10 amended: `READ_TIMEOUT_SECONDS=45` is 45 seconds. -/
theorem duration_resolution_witness :
    (loadConfig id .bits64 (envOf [("READ_TIMEOUT_SECONDS", "45")])).1.ReadTimeout
      = 45 * 1000000000 :=
  ((duration_resolution id .bits64 (envOf [("READ_TIMEOUT_SECONDS", "45")]) "45" 45
    (by decide) (by decide)).1 (by decide)).2 (by decide)

end EnvVar
